import Mathlib

/-!
Shallow embedding of the quinn-proto QUIC connection state machine
(`src/quinn-proto/src/connection.rs`) and proofs about it.

Conventions used throughout:
* `Instant` and `Duration` values are modelled as natural numbers of
  microseconds; `Instant - Duration` and `instant_saturating_sub` both become
  truncated natural subtraction (the latter is exactly saturating subtraction).
* Rust integer counters (`u64`, `u16`) are modelled as `Nat`; none of the
  embedded arithmetic relies on wraparound except where noted.
* `BTreeMap<u64, SentPacket>` is modelled as an association list sorted by
  strictly increasing key.
-/

namespace Quinn

/-- Packet number space identifiers, `SpaceId` in the source. -/
inductive SpaceId where
  | initial
  | handshake
  | data
deriving Repr, DecidableEq

/-- Subset of `TransportConfig` fields read by the embedded operations. -/
structure TransportConfig where
  loss_reduction_factor : Nat
  minimum_window : Nat
  time_threshold : Nat
  packet_threshold : Nat
  persistent_congestion_threshold : Nat
  max_datagram_size : Nat
  initial_rtt : Nat
  send_window : Nat
deriving Repr, DecidableEq

/-! ## Congestion event (`Connection::congestion_event`, C5) -/

/-- Congestion-control fields of `Connection` touched by `congestion_event`. -/
structure CongestionState where
  congestion_window : Nat
  recovery_start_time : Nat
  ssthresh : Nat
deriving Repr, DecidableEq

/-- Embeds `Connection::in_recovery`: a send time is in recovery when it does not
exceed `recovery_start_time`. -/
def in_recovery (s : CongestionState) (sent_time : Nat) : Bool :=
  sent_time ≤ s.recovery_start_time

/-- Embeds `Connection::congestion_event`: start a new recovery epoch unless the lost
packet was sent inside the previous one. The window is multiplied by
`loss_reduction_factor` as a Q16 fixed-point factor (shift right by 16) and
clamped below by `minimum_window`. -/
def congestion_event (cfg : TransportConfig) (now sent_time : Nat)
    (s : CongestionState) : CongestionState :=
  if in_recovery s sent_time then s
  else
    let cw := (s.congestion_window * cfg.loss_reduction_factor) >>> 16
    let cw := max cw cfg.minimum_window
    { congestion_window := cw, recovery_start_time := now, ssthresh := cw }

/-! ## Anti-amplification (`Connection::poll_transmit`, C1)

The fields of `Connection` that the anti-amplification gate at the top of
`poll_transmit` reads, together with the operations of the connection that
modify them. -/

/-- State relevant to the server-side anti-amplification gate. -/
structure AmpState where
  is_server : Bool
  is_handshake : Bool
  remote_validated : Bool
  total_recvd : Nat
  total_sent : Nat
  mtu : Nat
deriving Repr, DecidableEq

/-- The `poll_transmit` anti-amplification gate (`connection.rs` lines
2188-2195): transmission is refused iff the connection is a handshaking
server whose peer address is unvalidated and `total_recvd * 3 <
total_sent + mtu`. -/
def ampBlocked (s : AmpState) : Bool :=
  s.is_handshake && !s.remote_validated && s.is_server &&
    decide (s.total_recvd * 3 < s.total_sent + s.mtu)

/-- Operations of the connection that touch the anti-amplification state:
datagram receipt (`handle_event` accumulates `total_recvd`), a `poll_transmit`
call that emits a packet of `len ≤ mtu` bytes (adding to `total_sent`),
address validation (`on_packet_authenticated` on a Handshake packet, or a
matching PATH_RESPONSE), handshake completion, and server-side path migration
(`Connection::migrate`, which clears `remote_validated`). -/
inductive AmpOp where
  | recv (n : Nat)
  | transmit (len : Nat)
  | validate
  | establish
  | migrate
deriving Repr, DecidableEq

/-- Apply one operation; `none` when the operation cannot occur in this state
(`poll_transmit` returning `None`, or migration on a client). -/
def applyAmpOp (s : AmpState) (op : AmpOp) : Option AmpState :=
  match op with
  | .recv n => some { s with total_recvd := s.total_recvd + n }
  | .transmit len =>
      if len ≤ s.mtu && !ampBlocked s then
        some { s with total_sent := s.total_sent + len }
      else
        none
  | .validate => some { s with remote_validated := true }
  | .establish => some { s with is_handshake := false }
  | .migrate =>
      if s.is_server then some { s with remote_validated := false } else none

/-- Run a sequence of operations from a state. -/
def ampRun (s : AmpState) : List AmpOp → Option AmpState
  | [] => some s
  | op :: ops => (applyAmpOp s op).bind (fun s2 => ampRun s2 ops)

/-- Initial anti-amplification state of a freshly constructed server-side
`Connection` (`Connection::new`: `total_recvd = total_sent = 0`). -/
def ampInit : AmpState :=
  { is_server := true
    is_handshake := true
    remote_validated := false
    total_recvd := 0
    total_sent := 0
    mtu := 1200 }

/-! ## Spare remote CIDs (`rem_cids`, C10) -/

/-- A NEW_CONNECTION_ID frame (`frame::NewConnectionId`); the CID itself and
the reset token are abstracted to numbers. -/
structure NewConnectionId where
  sequence : Nat
  id : Nat
  reset_token : Nat
deriving Repr, DecidableEq

/-- Operations that touch `Connection::rem_cids`: processing a
NEW_CONNECTION_ID frame (`process_payload`), and popping one spare CID during
migration. `hasResetToken` is whether `params.stateless_reset_token` is set;
when it is not, the frame is consumed by `update_rem_cid` instead of being
stored. -/
inductive RemCidOp where
  | newCid (hasResetToken : Bool) (frame : NewConnectionId)
  | popForMigration
deriving Repr, DecidableEq

/-- Apply one `rem_cids` operation (`connection.rs` lines 1755-1779 and
1794). A frame is appended only when fewer than 32 entries are stored. -/
def applyRemCidOp (cids : List NewConnectionId) (op : RemCidOp) :
    List NewConnectionId :=
  match op with
  | .newCid hasResetToken frame =>
      if !hasResetToken then cids
      else if cids.length < 32 then cids ++ [frame] else cids
  | .popForMigration => cids.dropLast

/-! ## Sent packets and in-flight accounting (C2) -/

/-- Stream identifier (`StreamId`): a `u64` whose bit 0 is the initiator and
bit 1 the directionality, as in the QUIC wire encoding. -/
abbrev StreamId := Nat

/-- A CRYPTO frame fragment (`frame::Crypto`); bytes are modelled as `Nat`s. -/
structure CryptoFrame where
  offset : Nat
  data : List Nat
deriving Repr, DecidableEq

/-- A STREAM frame fragment (`frame::Stream`). -/
structure StreamFrame where
  id : StreamId
  offset : Nat
  fin : Bool
  data : List Nat
deriving Repr, DecidableEq

/-- Modelled from the spec: `Retransmits` (spec §3, source file
`quinn-proto/src/spaces.rs` is not part of the given sources) — the bundle of
frames whose loss requires retransmission. -/
structure Retransmits where
  max_data : Bool
  max_uni_stream_id : Bool
  max_bi_stream_id : Bool
  max_stream_data : List StreamId
  crypto : List CryptoFrame
  stream : List StreamFrame
  rst_stream : List (StreamId × Nat)
  stop_sending : List (StreamId × Nat)
  new_cids : List NewConnectionId
  retire_cids : List Nat
deriving Repr, DecidableEq

/-- Modelled from the spec: the empty `Retransmits` bundle
(`Retransmits::default()`). -/
def Retransmits.default : Retransmits :=
  { max_data := false, max_uni_stream_id := false, max_bi_stream_id := false
    max_stream_data := [], crypto := [], stream := [], rst_stream := []
    stop_sending := [], new_cids := [], retire_cids := [] }

/-- Modelled from the spec: merging retransmit bundles (the `+=` used when a
lost packet's frames are re-queued into `pending`). -/
def Retransmits.add (a b : Retransmits) : Retransmits :=
  { max_data := a.max_data || b.max_data
    max_uni_stream_id := a.max_uni_stream_id || b.max_uni_stream_id
    max_bi_stream_id := a.max_bi_stream_id || b.max_bi_stream_id
    max_stream_data := a.max_stream_data ++ b.max_stream_data
    crypto := a.crypto ++ b.crypto
    stream := a.stream ++ b.stream
    rst_stream := a.rst_stream ++ b.rst_stream
    stop_sending := a.stop_sending ++ b.stop_sending
    new_cids := a.new_cids ++ b.new_cids
    retire_cids := a.retire_cids ++ b.retire_cids }

/-- Record `SentPacket` (spec §3): bookkeeping for one transmitted packet. The
`acks` RangeSet is modelled by its set of members. -/
structure SentPacket where
  time_sent : Nat
  size : Nat
  ack_eliciting : Bool
  is_crypto_packet : Bool
  acks : List Nat
  retransmits : Retransmits
deriving Repr, DecidableEq

/-- Record `InFlight`: aggregate counters over all unacknowledged sent packets. -/
structure InFlight where
  bytes : Nat
  crypto : Nat
  ack_eliciting : Nat
deriving Repr, DecidableEq

/-- Embeds `InFlight::new`. -/
def InFlight.new : InFlight := { bytes := 0, crypto := 0, ack_eliciting := 0 }

/-- Embeds `InFlight::insert`: booleans count as 0/1 exactly as the Rust `as u64`
casts. -/
def InFlight.insert (f : InFlight) (p : SentPacket) : InFlight :=
  { bytes := f.bytes + p.size
    crypto := f.crypto + (if p.is_crypto_packet then 1 else 0)
    ack_eliciting := f.ack_eliciting + (if p.ack_eliciting then 1 else 0) }

/-- Embeds `InFlight::remove`; `u64` subtraction becomes truncated subtraction, which
agrees with the source whenever the counters dominate the packet (the
invariant proved below guarantees this on reachable states). -/
def InFlight.remove (f : InFlight) (p : SentPacket) : InFlight :=
  { bytes := f.bytes - p.size
    crypto := f.crypto - (if p.is_crypto_packet then 1 else 0)
    ack_eliciting := f.ack_eliciting - (if p.ack_eliciting then 1 else 0) }

/-- Remove a batch of packets, as the loops over drained `sent_packets` maps
do (`discard_space`, `on_loss_detection_timeout`, `reject_0rtt`). -/
def InFlight.removeAll (f : InFlight) (ps : List SentPacket) : InFlight :=
  ps.foldl InFlight.remove f

/-- Embeds `BTreeMap::get` on the association-list model of `sent_packets`. -/
def alLookup (pn : Nat) : List (Nat × SentPacket) → Option SentPacket
  | [] => none
  | e :: es => if e.1 = pn then some e.2 else alLookup pn es

/-- Embeds `BTreeMap::remove` on the association-list model of `sent_packets`. -/
def alErase (pn : Nat) : List (Nat × SentPacket) → List (Nat × SentPacket)
  | [] => []
  | e :: es => if e.1 = pn then es else e :: alErase pn es

/-- Sum of a per-packet statistic over a `sent_packets` map. -/
def listSum (f : SentPacket → Nat) (l : List (Nat × SentPacket)) : Nat :=
  (l.map (fun e => f e.2)).sum

/-- Packet size statistic. -/
def szB (p : SentPacket) : Nat := p.size

/-- Crypto-packet count statistic. -/
def cryB (p : SentPacket) : Nat := if p.is_crypto_packet then 1 else 0

/-- Ack-eliciting count statistic. -/
def ackB (p : SentPacket) : Nat := if p.ack_eliciting then 1 else 0

/-- The `sent_packets` map and transmit counter of one `PacketSpace`,
projected onto the fields the in-flight invariant mentions. -/
structure Space2 where
  sent_packets : List (Nat × SentPacket)
  next_tx : Nat
  has_keys : Bool
deriving Repr, DecidableEq

/-- Fresh `PacketSpace::new` projection. -/
def Space2.new (keys : Bool) : Space2 :=
  { sent_packets := [], next_tx := 0, has_keys := keys }

/-- The connection state C2 is about: the three packet-number spaces and the
aggregate `in_flight` counters. -/
structure Conn2 where
  initial_space : Space2
  hs_space : Space2
  data_space : Space2
  in_flight : InFlight
deriving Repr, DecidableEq

/-- Space accessor (`Connection::space`). -/
def Conn2.space (c : Conn2) : SpaceId → Space2
  | .initial => c.initial_space
  | .handshake => c.hs_space
  | .data => c.data_space

/-- Space update (`Connection::space_mut`). -/
def Conn2.setSpace (c : Conn2) : SpaceId → Space2 → Conn2
  | .initial, sp => { c with initial_space := sp }
  | .handshake, sp => { c with hs_space := sp }
  | .data, sp => { c with data_space := sp }

/-- State of `Connection::new`: empty maps, zero counters, Initial keys
installed. -/
def Conn2.init : Conn2 :=
  { initial_space := Space2.new true
    hs_space := Space2.new false
    data_space := Space2.new false
    in_flight := InFlight.new }

/-- Drain one space's `sent_packets`, removing every packet from `in_flight`
(the common loop of `discard_space`, the handshake-retransmit branch of
`on_loss_detection_timeout`, and `reject_0rtt`). -/
def clearSpace (c : Conn2) (id : SpaceId) : Conn2 :=
  let sp := c.space id
  let c2 :=
    { c with in_flight := c.in_flight.removeAll (sp.sent_packets.map Prod.snd) }
  c2.setSpace id { sp with sent_packets := [] }

/-- The packet-loss test of `detect_lost_packets`: the candidate range is
`0..largest_acked`, and a candidate is lost when it was sent at or before
`lost_send_time` or its number is at most `lost_pn`. -/
def packetLost (lost_send_time lost_pn largest_acked : Nat)
    (e : Nat × SentPacket) : Bool :=
  decide (e.1 < largest_acked) &&
    (decide (e.2.time_sent ≤ lost_send_time) || decide (e.1 ≤ lost_pn))

/-- The operations of C2, each the projection of the corresponding
`Connection` method onto the `Conn2` fields: `on_packet_sent` (the packet
number is allocated by `PacketSpace::get_tx_number`, so it is a fresh maximum
and `BTreeMap::insert` appends), `on_packet_acked` (remove if present),
`detect_lost_packets` (remove every lost candidate), `discard_space`, the
handshake-retransmit branch of `on_loss_detection_timeout` (drains Initial
and Handshake spaces that still have keys), and `reject_0rtt` (drains the
Data space). -/
inductive Op2 where
  | send (space : SpaceId) (p : SentPacket)
  | ackPacket (space : SpaceId) (pn : Nat)
  | detectLost (space : SpaceId) (lost_send_time lost_pn largest_acked : Nat)
  | discard (space : SpaceId)
  | retransmitHandshake
  | reject0rtt
deriving Repr, DecidableEq

/-- Apply one C2 operation. -/
def applyOp2 (c : Conn2) (op : Op2) : Conn2 :=
  match op with
  | .send id p =>
      let sp := c.space id
      let c2 := { c with in_flight := c.in_flight.insert p }
      c2.setSpace id
        { sp with
          sent_packets := sp.sent_packets ++ [(sp.next_tx, p)]
          next_tx := sp.next_tx + 1 }
  | .ackPacket id pn =>
      let sp := c.space id
      match alLookup pn sp.sent_packets with
      | none => c
      | some p =>
          let c2 := { c with in_flight := c.in_flight.remove p }
          c2.setSpace id { sp with sent_packets := alErase pn sp.sent_packets }
  | .detectLost id lost_send_time lost_pn largest_acked =>
      let sp := c.space id
      let lost :=
        sp.sent_packets.filter (packetLost lost_send_time lost_pn largest_acked)
      let c2 :=
        { c with in_flight := c.in_flight.removeAll (lost.map Prod.snd) }
      c2.setSpace id
        { sp with
          sent_packets :=
            sp.sent_packets.filter
              (fun e => !packetLost lost_send_time lost_pn largest_acked e) }
  | .discard id =>
      let c2 := clearSpace c id
      c2.setSpace id { c2.space id with has_keys := false }
  | .retransmitHandshake =>
      let c2 := if c.initial_space.has_keys then clearSpace c .initial else c
      if c2.hs_space.has_keys then clearSpace c2 .handshake else c2
  | .reject0rtt => clearSpace c .data

/-- The in-flight invariant of C2: every `InFlight` counter equals the
corresponding sum over all three spaces' sent packets. -/
def inFlightInv (c : Conn2) : Prop :=
  c.in_flight.bytes =
      listSum szB c.initial_space.sent_packets +
        listSum szB c.hs_space.sent_packets +
        listSum szB c.data_space.sent_packets ∧
  c.in_flight.crypto =
      listSum cryB c.initial_space.sent_packets +
        listSum cryB c.hs_space.sent_packets +
        listSum cryB c.data_space.sent_packets ∧
  c.in_flight.ack_eliciting =
      listSum ackB c.initial_space.sent_packets +
        listSum ackB c.hs_space.sent_packets +
        listSum ackB c.data_space.sent_packets

/-! ## Loss detection (`Connection::detect_lost_packets`, C4) -/

/-- Record `RttEstimator`. `smoothed` is `Option` exactly as in the source;
all durations are microseconds. -/
structure RttEstimator where
  latest : Nat
  smoothed : Option Nat
  var : Nat
  min : Nat
deriving Repr, DecidableEq

/-- Embeds `RttEstimator::update` (spec §4.6). `latest - self.min` and `-=` are the
source's `Duration` subtractions, which cannot underflow here because `min`
was just clamped to `latest`. -/
def RttEstimator.update (r : RttEstimator) (ack_delay rtt : Nat) :
    RttEstimator :=
  let latest := rtt
  let mn := Nat.min r.min latest
  let latest := if ack_delay < latest - mn then latest - ack_delay else latest
  match r.smoothed with
  | some smoothed =>
      let var_sample := if latest < smoothed then smoothed - latest
        else latest - smoothed
      { latest := latest, min := mn
        var := (3 * r.var + var_sample) / 4
        smoothed := some ((7 * smoothed + latest) / 8) }
  | none =>
      { latest := latest, min := mn, var := latest / 2, smoothed := some latest }

/-- The RTT used by loss detection:
`rtt.smoothed.map_or(rtt.latest, |x| max(x, rtt.latest))`. -/
def lossDelayRtt (rtt : RttEstimator) : Nat :=
  match rtt.smoothed with
  | none => rtt.latest
  | some x => max x rtt.latest

/-- Computes `loss_delay = rtt + rtt * time_threshold / 65536` (Q16 threshold). -/
def lossDelay (cfg : TransportConfig) (rtt : RttEstimator) : Nat :=
  lossDelayRtt rtt + lossDelayRtt rtt * cfg.time_threshold / 65536

/-- Minimum of two optional deadlines, as the
`loss_time.map_or(next, |x| min(x, next))` accumulation computes it. -/
def optMin : Option Nat → Option Nat → Option Nat
  | none, b => b
  | some a, none => some a
  | some a, some b => some (min a b)

/-- Minimum of a list of deadlines (`none` when empty). -/
def listMinO : List Nat → Option Nat
  | [] => none
  | x :: xs => optMin (some x) (listMinO xs)

/-- The scan of `detect_lost_packets` over `sent_packets.range(0..largest)`:
walk the map in order, collecting lost packet numbers and accumulating the
`loss_time` minimum over the candidates that are not yet lost. `lt` is the
running `space.loss_time`, reset to `none` before the loop. -/
def detectLostScan (lost_send_time lost_pn loss_delay largest : Nat) :
    List (Nat × SentPacket) → Option Nat → List Nat × Option Nat
  | [], lt => ([], lt)
  | e :: es, lt =>
      if e.1 < largest then
        if e.2.time_sent ≤ lost_send_time ∨ e.1 ≤ lost_pn then
          let r := detectLostScan lost_send_time lost_pn loss_delay largest es lt
          (e.1 :: r.1, r.2)
        else
          detectLostScan lost_send_time lost_pn loss_delay largest es
            (optMin lt (some (e.2.time_sent + loss_delay)))
      else detectLostScan lost_send_time lost_pn loss_delay largest es lt

/-- Embeds `Connection::detect_lost_packets` restricted to one space's map: returns
the list of lost packet numbers and the new `space.loss_time`.
`now - loss_delay` is an `Instant - Duration` in the source (which panics on
underflow); here it is truncated subtraction, and the claim theorem carries
the no-underflow hypothesis. `largest - packet_threshold` is
`saturating_sub`, which truncated subtraction models exactly. -/
def detect_lost_packets (cfg : TransportConfig) (rtt : RttEstimator)
    (now largest : Nat) (l : List (Nat × SentPacket)) :
    List Nat × Option Nat :=
  let ld := lossDelay cfg rtt
  detectLostScan (now - ld) (largest - cfg.packet_threshold) ld largest l none

/-- Survivor test of the loss scan: an in-range candidate that is not lost. -/
def lossCandidateAlive (lost_send_time lost_pn largest : Nat)
    (e : Nat × SentPacket) : Bool :=
  decide (e.1 < largest) &&
    !(decide (e.2.time_sent ≤ lost_send_time) || decide (e.1 ≤ lost_pn))

/-- Concrete configuration used by witnesses. -/
def cfgW : TransportConfig :=
  { loss_reduction_factor := 32768, minimum_window := 2400
    time_threshold := 8192, packet_threshold := 3
    persistent_congestion_threshold := 3, max_datagram_size := 1200
    initial_rtt := 100000, send_window := 800000 }

/-- Concrete RTT estimator used by witnesses. -/
def rttW : RttEstimator :=
  { latest := 80, smoothed := some 100, var := 10, min := 60 }

/-- Concrete sent packet with the given send time. -/
def sentAt (t : Nat) : SentPacket :=
  { time_sent := t, size := 1200, ack_eliciting := true
    is_crypto_packet := false, acks := [], retransmits := Retransmits.default }

/-- Concrete sent-packet map used by the C4 witness. -/
def lW : List (Nat × SentPacket) :=
  [(1, sentAt 500), (8, sentAt 900), (9, sentAt 950), (12, sentAt 990)]

/-! ## Stream writes and blocked streams (`Connection::write`, C3 and C9) -/

/-- Enum `stream::WriteError`. -/
inductive WriteError where
  | blocked
  | stopped (error_code : Nat)
  | unknownStream
deriving Repr, DecidableEq

/-- Send-stream state machine (spec §3): `Ready → DataSent → DataRecvd`,
`ResetSent{stop_reason?} → ResetRecvd`. -/
inductive SendState where
  | ready
  | dataSent
  | dataRecvd
  | resetSent (stop_reason : Option Nat)
  | resetRecvd (stop_reason : Option Nat)
deriving Repr, DecidableEq

/-- The STOP_SENDING error code recorded in the send state, if any
(`process_payload` stores it as `ResetSent { stop_reason: Some(code) }`). -/
def stopReason : SendState → Option Nat
  | .resetSent r => r
  | .resetRecvd r => r
  | _ => none

/-- Per-stream send half (`stream::Send`): current offset, peer-advertised
limit, bytes in flight, state. -/
structure SendStream where
  offset : Nat
  max_data : Nat
  bytes_in_flight : Nat
  state : SendState
deriving Repr, DecidableEq

/-- Lookup in the stream table (`Streams::get_send_mut`). -/
def sLookup (id : StreamId) : List (StreamId × SendStream) → Option SendStream
  | [] => none
  | e :: es => if e.1 = id then some e.2 else sLookup id es

/-- In-place update of the stream table. -/
def sUpdate (id : StreamId) (ss : SendStream) :
    List (StreamId × SendStream) → List (StreamId × SendStream)
  | [] => []
  | e :: es => if e.1 = id then (id, ss) :: es else e :: sUpdate id ss es

/-- Remove a stream from the table. -/
def sRemove (id : StreamId) :
    List (StreamId × SendStream) → List (StreamId × SendStream)
  | [] => []
  | e :: es => if e.1 = id then es else e :: sRemove id es

/-- Modelled from the spec: `Send::write_budget` (spec §4.4; `stream.rs` is
not among the given sources). Returns `Stopped{code}` when the peer sent
STOP_SENDING (the code stored in the send state), otherwise the stream-level
budget `max_data - offset`, reported as `Blocked` when zero. -/
def write_budget (ss : SendStream) : Except WriteError Nat :=
  match stopReason ss.state with
  | some code => .error (.stopped code)
  | none =>
      if ss.max_data - ss.offset = 0 then .error .blocked
      else .ok (ss.max_data - ss.offset)

/-- Modelled from the spec: `Streams::maybe_cleanup` — forget a stream whose
send side reached a terminal state. -/
def maybe_cleanup (id : StreamId) (streams : List (StreamId × SendStream)) :
    List (StreamId × SendStream) :=
  match sLookup id streams with
  | some ss =>
      match ss.state with
      | .dataRecvd => sRemove id streams
      | .resetRecvd _ => sRemove id streams
      | _ => streams
  | none => streams

/-- Coarse connection lifecycle, enough to evaluate `State::is_closed` and
the `State::Established` test in `congestion_blocked`. -/
inductive ConnStage where
  | handshake
  | established
  | closed
deriving Repr, DecidableEq

/-- Application event relevant to stream writability. -/
inductive Event3 where
  | streamWritable (stream : StreamId)
deriving Repr, DecidableEq

/-- The `Connection` fields read and written by `write`, `blocked` and the
MAX_DATA frame handler. `send_window` is `config.send_window`,
`pending_stream` is `spaces[Data].pending.stream`. -/
structure Conn3 where
  stage : ConnStage
  max_data : Nat
  data_sent : Nat
  unacked_data : Nat
  send_window : Nat
  congestion_window : Nat
  in_flight_bytes : Nat
  mtu : Nat
  streams : List (StreamId × SendStream)
  blocked_streams : List StreamId
  events : List Event3
  pending_stream : List StreamFrame
deriving Repr, DecidableEq

/-- Embeds `Connection::congestion_blocked`: outside recovery bookkeeping, the
window minus bytes in flight (saturating) leaves less than one MTU. -/
def congestion_blocked (c : Conn3) : Bool :=
  if c.stage = .established then
    decide (c.congestion_window - c.in_flight_bytes < c.mtu)
  else
    false

/-- Embeds `Connection::blocked`: connection-level write block. -/
def conn3Blocked (c : Conn3) : Bool :=
  decide (c.max_data ≤ c.data_sent) || congestion_blocked c ||
    decide (c.send_window ≤ c.unacked_data)

/-- Embeds `FnvHashSet::insert` on the blocked-streams set. -/
def insertBlocked (id : StreamId) (bs : List StreamId) : List StreamId :=
  if id ∈ bs then bs else bs ++ [id]

/-- Embeds `Connection::queue_stream_data` restricted to a prefix of `n` bytes:
advance the stream offset and in-flight count, bump `data_sent` and
`unacked_data`, and append a STREAM frame to the Data space's pending queue. -/
def queue_stream_data (c : Conn3) (stream : StreamId) (ss : SendStream)
    (n : Nat) (data : List Nat) : Conn3 :=
  { c with
    streams := sUpdate stream
      { ss with offset := ss.offset + n, bytes_in_flight := ss.bytes_in_flight + n }
      c.streams
    data_sent := c.data_sent + n
    unacked_data := c.unacked_data + n
    pending_stream := c.pending_stream ++
      [{ id := stream, offset := ss.offset, fin := false, data := data.take n }] }

/-- Embeds `Connection::write`. The `assert` on stream directionality (a panic for
recv-only streams) is outside the embedding; theorems about the success path
carry a `Ready`-state hypothesis matching the assert in
`queue_stream_data`. -/
def write (c : Conn3) (stream : StreamId) (data : List Nat) :
    Conn3 × Except WriteError Nat :=
  if c.stage = .closed then (c, .error .blocked)
  else if conn3Blocked c then
    ({ c with blocked_streams := insertBlocked stream c.blocked_streams },
      .error .blocked)
  else
    match sLookup stream c.streams with
    | none => (c, .error .unknownStream)
    | some ss =>
        match write_budget ss with
        | .error (.stopped code) =>
            ({ c with streams := maybe_cleanup stream c.streams },
              .error (.stopped code))
        | .error e => (c, .error e)
        | .ok stream_budget =>
            let conn_budget :=
              min (c.max_data - c.data_sent) (c.send_window - c.unacked_data)
            let n := min (min conn_budget stream_budget) data.length
            (queue_stream_data c stream ss n data, .ok n)

/-- The `Frame::MaxData` arm of `process_payload`: raise `max_data` and, if
the connection just became unblocked, wake every recorded blocked stream. -/
def handleMaxData (c : Conn3) (bytes : Nat) : Conn3 :=
  let was_blocked := conn3Blocked c
  let c2 := { c with max_data := max bytes c.max_data }
  if was_blocked && !conn3Blocked c2 then
    { c2 with
      events := c2.events ++ c2.blocked_streams.map Event3.streamWritable
      blocked_streams := [] }
  else c2

/-- Concrete stream used by C3 witnesses and counterexamples. -/
def ssW : SendStream :=
  { offset := 0, max_data := 5000, bytes_in_flight := 0, state := .ready }

/-- Congestion-blocked established connection with ample flow-control
budgets (C3 counterexample). -/
def c3x : Conn3 :=
  { stage := .established, max_data := 10000, data_sent := 0
    unacked_data := 0, send_window := 10000, congestion_window := 1000
    in_flight_bytes := 900, mtu := 1200, streams := [(0, ssW)]
    blocked_streams := [], events := [], pending_stream := [] }

/-- Unblocked established connection with an open stream (C3 witness). -/
def c3w : Conn3 :=
  { stage := .established, max_data := 10000, data_sent := 0
    unacked_data := 0, send_window := 10000, congestion_window := 100000
    in_flight_bytes := 0, mtu := 1200, streams := [(0, ssW)]
    blocked_streams := [], events := [], pending_stream := [] }

/-- Stream whose flow-control budget is exhausted (C9 counterexample). -/
def ssExhausted : SendStream :=
  { offset := 500, max_data := 500, bytes_in_flight := 0, state := .ready }

/-- Unblocked connection holding only the budget-exhausted stream (C9
counterexample). -/
def c9x : Conn3 :=
  { stage := .established, max_data := 10000, data_sent := 0
    unacked_data := 0, send_window := 10000, congestion_window := 100000
    in_flight_bytes := 0, mtu := 1200, streams := [(0, ssExhausted)]
    blocked_streams := [], events := [], pending_stream := [] }

/-- Connection-blocked state with recorded blocked streams (C9 witness). -/
def c9w : Conn3 :=
  { stage := .established, max_data := 100, data_sent := 100
    unacked_data := 0, send_window := 10000, congestion_window := 100000
    in_flight_bytes := 0, mtu := 1200, streams := [(0, ssW)]
    blocked_streams := [4], events := [], pending_stream := [] }

/-! ## Key selection across a key update (`Connection::decrypt_packet` and
`Connection::update_keys`, C6) -/

/-- Which key generation `decrypt_packet` selects to decrypt a packet. -/
inductive KeyChoice where
  | zeroRtt
  | current
  | previous
  | nextGen
deriving Repr, DecidableEq

/-- The connection fields that drive key selection: the current 1-RTT key
phase, and `prev_crypto` reduced to its `end_packet` field (the only field
the selection reads; the keys themselves are opaque here). -/
structure KeyState where
  key_phase : Bool
  prev_end_packet : Option Nat
deriving Repr, DecidableEq

/-- The key-selection chain of `decrypt_packet` (`connection.rs` lines
2570-2593): 0-RTT packets use the 0-RTT keys; a matching key-phase bit or a
non-Data space uses the current space keys; otherwise a packet numbered below
`prev_crypto.end_packet` uses the previous generation, and anything else is
tried against the next generation derived on the fly. -/
def selectKeys (is0rtt : Bool) (space : SpaceId) (pkt_key_phase : Bool)
    (number : Nat) (ks : KeyState) : KeyChoice :=
  if is0rtt then .zeroRtt
  else if pkt_key_phase = ks.key_phase ∨ space ≠ .data then .current
  else
    match ks.prev_end_packet with
    | some e => if number < e then .previous else .nextGen
    | none => .nextGen

/-- Embeds `Connection::update_keys`: save the old generation as `prev_crypto` with
`end_packet := number` and flip the key phase. -/
def update_keys (ks : KeyState) (number : Nat) : KeyState :=
  { key_phase := !ks.key_phase, prev_end_packet := some number }

/-! ## Stateless reset on decryption failure (`Connection::handle_packet`,
C7) -/

/-- Constant `RESET_TOKEN_SIZE`. -/
def RESET_TOKEN_SIZE : Nat := 16

/-- Full connection lifecycle states (`State`). -/
inductive State7 where
  | handshake
  | established
  | closed
  | draining
  | drained
deriving Repr, DecidableEq

/-- Embeds `State::is_closed`. -/
def State7.is_closed : State7 → Bool
  | .closed => true
  | .draining => true
  | .drained => true
  | _ => false

/-- Application event as observed in the C7 path. -/
inductive Event7 where
  | connectionLostReset
deriving Repr, DecidableEq

/-- Endpoint event as observed in the C7 path. -/
inductive EndpointEvent7 where
  | drained
deriving Repr, DecidableEq

/-- Connection fields touched by the decrypt-failure path of
`handle_packet`. -/
structure Conn7 where
  state : State7
  stateless_reset_token : Option (List Nat)
  events : List Event7
  endpoint_events : List EndpointEvent7
  io_close : Bool
deriving Repr, DecidableEq

/-- The stateless-reset test at the top of `handle_packet`: the token is
known and the payload's trailing `RESET_TOKEN_SIZE` bytes equal it. -/
def stateless_reset_detected (token : Option (List Nat))
    (payload : List Nat) : Bool :=
  match token with
  | none => false
  | some t =>
      decide (RESET_TOKEN_SIZE ≤ payload.length) &&
        decide (payload.drop (payload.length - RESET_TOKEN_SIZE) = t)

/-- The `Err(None)` (authentication failure) arm of `handle_packet` together
with the subsequent state-transition epilogue: a detected stateless reset
yields `Err(ConnectionError::Reset)`, which pushes one
`ConnectionLost{Reset}` application event, moves the state to `Drained`, and
(the connection not having been drained before) pushes one `Drained` endpoint
event; `io.close` is set only for `State::Closed`, which `Drained` is not.
Any other authentication failure returns before touching the connection. -/
def handle_auth_failed_packet (c : Conn7) (payload : List Nat) : Conn7 :=
  let was_drained := c.state = .drained
  if stateless_reset_detected c.stateless_reset_token payload then
    let c2 := { c with
      events := c.events ++ [.connectionLostReset]
      state := State7.drained }
    if !was_drained then
      { c2 with endpoint_events := c2.endpoint_events ++ [.drained] }
    else c2
  else c

/-! ## Full ACK processing (`Connection::on_ack_received`, C8)

The state below carries every `Connection` field that `on_ack_received` and
its callees (`on_packet_acked`, `detect_lost_packets`, `congestion_event`,
`process_ecn`, `set_key_discard_timer`, `set_loss_detection_timer`, the
blocked-stream drain) read or write. -/

/-- Constant `TIMER_GRANULARITY` (one millisecond, in microseconds). -/
def TIMER_GRANULARITY : Nat := 1000

/-- Constant `MAX_BACKOFF_EXPONENT`. -/
def MAX_BACKOFF_EXPONENT : Nat := 16

/-- Record `frame::EcnCounts`. -/
structure EcnCounts where
  ect0 : Nat
  ect1 : Nat
  ce : Nat
deriving Repr, DecidableEq

/-- A timer transition queued in `io.timers` (`TimerSetting`). -/
inductive TimerAct where
  | start (time : Nat)
  | stop
deriving Repr, DecidableEq

/-- Application events pushed by ACK processing. -/
inductive EventA where
  | streamFinished (stream : StreamId)
  | streamWritable (stream : StreamId)
deriving Repr, DecidableEq

/-- One `PacketSpace`, with the fields ACK processing touches. `pending_acks`
(a RangeSet) is modelled by its member set, `ecn_feedback` is the space's
tracked ECN counter total, `has_keys` is `crypto.is_some()`. -/
structure PacketSpaceA where
  sent_packets : List (Nat × SentPacket)
  largest_acked_packet : Nat
  largest_acked_packet_sent : Nat
  pending : Retransmits
  pending_acks : List Nat
  loss_time : Option Nat
  has_keys : Bool
  ecn_feedback : EcnCounts
deriving Repr, DecidableEq

/-- An ACK frame (`frame::Ack`): `ranges` are the acknowledged half-open
intervals `[lo, hi)`, `largest` the largest acknowledged packet number,
`delay` the raw encoded delay, `ecn` the optional ECN counter block. -/
structure AckFrame where
  largest : Nat
  delay : Nat
  ranges : List (Nat × Nat)
  ecn : Option EcnCounts
deriving Repr, DecidableEq

/-- The connection state ACK processing operates on. -/
structure ConnA where
  spInitial : PacketSpaceA
  spHandshake : PacketSpaceA
  spData : PacketSpaceA
  in_flight : InFlight
  rtt : RttEstimator
  cc : CongestionState
  crypto_count : Nat
  pto_count : Nat
  sending_ecn : Bool
  stage : ConnStage
  is_client : Bool
  cfg : TransportConfig
  ack_delay_exponent : Nat
  max_ack_delay : Nat
  mtu : Nat
  max_data : Nat
  data_sent : Nat
  unacked_data : Nat
  lost_packets : Nat
  time_of_last_sent_ack_eliciting_packet : Nat
  time_of_last_sent_crypto_packet : Nat
  prev_crypto_update_ack_time : Option Nat
  timer_loss : Option TimerAct
  timer_key_discard : Option TimerAct
  streams : List (StreamId × SendStream)
  blocked_streams : List StreamId
  events : List EventA
deriving Repr, DecidableEq

/-- Embeds `Connection::space`. -/
def ConnA.getSpace (c : ConnA) : SpaceId → PacketSpaceA
  | .initial => c.spInitial
  | .handshake => c.spHandshake
  | .data => c.spData

/-- Embeds `Connection::space_mut` as a functional update. -/
def ConnA.setSpace (c : ConnA) : SpaceId → PacketSpaceA → ConnA
  | .initial, s => { c with spInitial := s }
  | .handshake, s => { c with spHandshake := s }
  | .data, s => { c with spData := s }

/-- Embeds `Connection::congestion_blocked` on the C8 state. -/
def congestion_blockedA (c : ConnA) : Bool :=
  if c.stage = .established then
    decide (c.cc.congestion_window - c.in_flight.bytes < c.mtu)
  else false

/-- Embeds `Connection::blocked` on the C8 state. -/
def blockedA (c : ConnA) : Bool :=
  decide (c.max_data ≤ c.data_sent) || congestion_blockedA c ||
    decide (c.cfg.send_window ≤ c.unacked_data)

/-- Embeds `Connection::pto`. -/
def ptoA (c : ConnA) : Nat :=
  (match c.rtt.smoothed with
    | some s => s
    | none => c.cfg.initial_rtt) +
    max (4 * c.rtt.var) TIMER_GRANULARITY + c.max_ack_delay

/-- Embeds `Connection::earliest_loss_time`, reduced to the earliest time (the
paired space id is not needed by the timer computation). -/
def earliest_loss_timeA (c : ConnA) : Option Nat :=
  optMin (optMin c.spInitial.loss_time c.spHandshake.loss_time)
    c.spData.loss_time

/-- Embeds `Connection::set_loss_detection_timer`. -/
def set_loss_detection_timerA (c : ConnA) : ConnA :=
  match earliest_loss_timeA c with
  | some t => { c with timer_loss := some (.start t) }
  | none =>
      if c.in_flight.crypto ≠ 0 ∨ c.crypto_count ≠ 0 ∨
          (c.stage = .handshake ∧ c.is_client) then
        let t := 2 * (match c.rtt.smoothed with
          | some s => s
          | none => c.cfg.initial_rtt)
        let t := max t TIMER_GRANULARITY *
          2 ^ (min c.crypto_count MAX_BACKOFF_EXPONENT)
        { c with
          timer_loss := some (.start (c.time_of_last_sent_crypto_packet + t)) }
      else if c.in_flight.ack_eliciting = 0 then
        { c with timer_loss := some .stop }
      else
        let t := ptoA c * 2 ^ (min c.pto_count MAX_BACKOFF_EXPONENT)
        { c with
          timer_loss :=
            some (.start (c.time_of_last_sent_ack_eliciting_packet + t)) }

/-- Embeds `Connection::set_key_discard_timer`. -/
def set_key_discard_timerA (c : ConnA) (now : Nat) : ConnA :=
  if c.spHandshake.has_keys then
    { c with timer_key_discard := some (.start (now + ptoA c * 3)) }
  else
    match c.prev_crypto_update_ack_time with
    | some t => { c with timer_key_discard := some (.start (t + ptoA c * 3)) }
    | none => c

/-- Modelled from the spec: `PacketSpace::detect_ecn` (spec §4.2;
`spaces.rs` is not among the given sources). Any regression of a counter or a
total increase smaller than the newly acked count is a verification failure;
otherwise the tracked totals are replaced and CE growth reports congestion. -/
def detect_ecn (tracked : EcnCounts) (newly_acked : Nat) (ecn : EcnCounts) :
    Except Unit (Bool × EcnCounts) :=
  if ecn.ect0 < tracked.ect0 ∨ ecn.ect1 < tracked.ect1 ∨
      ecn.ce < tracked.ce then
    .error ()
  else if ecn.ect0 + ecn.ect1 + ecn.ce <
      tracked.ect0 + tracked.ect1 + tracked.ce + newly_acked then
    .error ()
  else
    .ok (tracked.ce < ecn.ce, ecn)

/-- Embeds `Connection::process_ecn`: a verification failure halts ECN, a congestion
signal triggers a congestion event at the largest acked packet's send time. -/
def process_ecnA (c : ConnA) (now : Nat) (sp : SpaceId) (newly : Nat)
    (ecn : EcnCounts) (largest_sent_time : Nat) : ConnA :=
  let space := c.getSpace sp
  match detect_ecn space.ecn_feedback newly ecn with
  | .error _ => { c with sending_ecn := false }
  | .ok (congested, fb) =>
      let c2 := c.setSpace sp { space with ecn_feedback := fb }
      if congested then
        { c2 with cc := congestion_event c2.cfg now largest_sent_time c2.cc }
      else c2

/-- Congestion-window growth on ack of an ack-eliciting packet
(`on_packet_acked`): slow start below `ssthresh`, else NewReno congestion
avoidance; no growth in recovery. -/
def ackCongestion (c : ConnA) (info : SentPacket) : ConnA :=
  if info.ack_eliciting then
    if in_recovery c.cc info.time_sent then c
    else if c.cc.congestion_window < c.cc.ssthresh then
      { c with cc :=
          { c.cc with congestion_window := c.cc.congestion_window + info.size } }
    else
      { c with cc :=
          { c.cc with congestion_window := c.cc.congestion_window +
              c.cfg.max_datagram_size * info.size / c.cc.congestion_window } }
  else c

/-- The RESET_STREAM walk of `on_packet_acked`: an acked reset finalizes
`ResetSent → ResetRecvd` and cleans up when not peer-initiated. -/
def ackRstStep (c : ConnA) (e : StreamId × Nat) : ConnA :=
  match sLookup e.1 c.streams with
  | some ss =>
      match ss.state with
      | .resetSent stop_reason =>
          let streams :=
            sUpdate e.1 { ss with state := .resetRecvd stop_reason } c.streams
          let streams :=
            if stop_reason = none then maybe_cleanup e.1 streams else streams
          { c with streams := streams }
      | _ => c
  | none => c

/-- The walk over the acked packet's RESET_STREAM entries. -/
def ackRstWalk (c : ConnA) (rsts : List (StreamId × Nat)) : ConnA :=
  rsts.foldl ackRstStep c

/-- The STREAM-frame walk of `on_packet_acked`: acked stream bytes leave
`bytes_in_flight` and `unacked_data`; a `DataSent` stream whose last byte is
acked becomes `DataRecvd` and emits `StreamFinished`. -/
def ackStreamStep (c : ConnA) (fr : StreamFrame) : ConnA :=
  match sLookup fr.id c.streams with
  | none => c
  | some ss =>
      let ss2 := { ss with
        bytes_in_flight := ss.bytes_in_flight - fr.data.length }
      let c2 := { c with unacked_data := c.unacked_data - fr.data.length }
      if ss.state = .dataSent ∧ ss2.bytes_in_flight = 0 then
        { c2 with
          streams := maybe_cleanup fr.id
            (sUpdate fr.id { ss2 with state := .dataRecvd } c2.streams)
          events := c2.events ++ [.streamFinished fr.id] }
      else { c2 with streams := sUpdate fr.id ss2 c2.streams }

/-- The walk over the acked packet's STREAM entries. -/
def ackStreamWalk (c : ConnA) (frames : List StreamFrame) : ConnA :=
  frames.foldl ackStreamStep c

/-- Embeds `Connection::on_packet_acked`. The source removes the packet from the
map first and subtracts `pending_acks` last; no step in between reads or
writes the packet space, so both space changes are batched into one update
after the congestion/stream bookkeeping. -/
def on_packet_ackedA (c : ConnA) (sp : SpaceId) (pn : Nat) : ConnA :=
  match alLookup pn (c.getSpace sp).sent_packets with
  | none => c
  | some info =>
      let c3 := { c with in_flight := c.in_flight.remove info }
      let c4 := ackCongestion c3 info
      let c5 := ackRstWalk c4 info.retransmits.rst_stream
      let c6 := ackStreamWalk c5 info.retransmits.stream
      let space := c6.getSpace sp
      c6.setSpace sp
        { space with
          sent_packets := alErase pn space.sent_packets
          pending_acks :=
            space.pending_acks.filter (fun a => !(a ∈ info.acks)) }

/-- Erase a batch of keys from a `sent_packets` map. -/
def eraseKeys (pns : List Nat) (m : List (Nat × SentPacket)) :
    List (Nat × SentPacket) :=
  pns.foldl (fun m pn => alErase pn m) m

/-- Embeds `Connection::detect_lost_packets` on the C8 state. The per-packet removal
loop of the source is expressed as a batch (erase all lost keys, remove all
their records from `in_flight`, merge all their retransmits into `pending`),
which agrees with the loop because the lost keys are distinct map keys.
`largest_lost_sent - congestion_period` is an `Instant - Duration`
(panicking) subtraction modelled as truncated subtraction. -/
def detect_lost_packetsA (c : ConnA) (now : Nat) (sp : SpaceId) : ConnA :=
  let space := c.getSpace sp
  let ld := lossDelay c.cfg c.rtt
  let scan := detectLostScan (now - ld)
    (space.largest_acked_packet - c.cfg.packet_threshold) ld
    space.largest_acked_packet space.sent_packets none
  let lost := scan.1
  match lost.getLast? with
  | none => c.setSpace sp { space with loss_time := scan.2 }
  | some largest_lost =>
      let largest_lost_sent :=
        (alLookup largest_lost space.sent_packets).elim 0 SentPacket.time_sent
      let infos := lost.filterMap (fun pn => alLookup pn space.sent_packets)
      let space2 := { space with
        loss_time := scan.2
        sent_packets := eraseKeys lost space.sent_packets
        pending := infos.foldl (fun p i => p.add i.retransmits) space.pending }
      let old_bytes := c.in_flight.bytes
      let c2 := c.setSpace sp space2
      let c3 := { c2 with
        in_flight := c2.in_flight.removeAll infos
        lost_packets := c2.lost_packets + lost.length }
      let lost_ack_eliciting := old_bytes ≠ c3.in_flight.bytes
      if lost_ack_eliciting then
        let c4 := { c3 with
          cc := congestion_event c3.cfg now largest_lost_sent c3.cc }
        let congestion_period :=
          ptoA c3 * c3.cfg.persistent_congestion_threshold
        if space.largest_acked_packet_sent <
            largest_lost_sent - congestion_period then
          { c4 with cc :=
              { c4.cc with congestion_window := c4.cfg.minimum_window } }
        else c4
      else c3

/-- The `newly_acked` computation of `on_ack_received`: the map keys covered
by any of the frame's ranges. -/
def newlyAcked (ranges : List (Nat × Nat))
    (sent : List (Nat × SentPacket)) : List Nat :=
  match ranges with
  | [] => []
  | r :: rs =>
      (sent.filter (fun e => r.1 ≤ e.1 ∧ e.1 < r.2)).map Prod.fst ++
        newlyAcked rs sent

/-- The `new_largest` block at the top of `on_ack_received`: when the frame
advances `largest_acked_packet`, record it together with the send time of the
matching sent packet (when the peer did not ACK an unsent number). -/
def onAckLargestStep (c : ConnA) (sp : SpaceId) (largest : Nat) :
    ConnA × Bool :=
  let space := c.getSpace sp
  if space.largest_acked_packet < largest then
    (c.setSpace sp
      (match alLookup largest space.sent_packets with
        | some info =>
            { space with
              largest_acked_packet := largest
              largest_acked_packet_sent := info.time_sent }
        | none => { space with largest_acked_packet := largest }),
      true)
  else (c, false)

/-- The RTT-sample block of `on_ack_received`: when the frame's largest
packet is a tracked ack-eliciting packet, feed the estimator with the decoded
ack delay clamped to `max_ack_delay`. -/
def onAckRttStep (c1 : ConnA) (now : Nat) (sp : SpaceId)
    (ack : AckFrame) : ConnA :=
  match alLookup ack.largest ((c1.getSpace sp).sent_packets) with
  | some info =>
      if info.ack_eliciting then
        { c1 with
          rtt := c1.rtt.update
            (min (ack.delay <<< c1.ack_delay_exponent) c1.max_ack_delay)
            (now - info.time_sent) }
      else c1
  | none => c1

/-- The key-discard check of `on_ack_received`: a client whose handshake
CRYPTO is fully acked arms the key-discard timer. -/
def onAckKeyDiscardStep (c3 : ConnA) (now : Nat) (sp : SpaceId) : ConnA :=
  if sp = .handshake ∧ c3.stage ≠ .handshake ∧ c3.is_client = true ∧
      c3.in_flight.crypto = 0 ∧ (c3.getSpace .handshake).pending.crypto = []
  then set_key_discard_timerA c3 now
  else c3

/-- The ECN block of `on_ack_received`: examined only when sending ECN; a
missing ECN block disables it, a present one is processed only when the
frame advanced `largest_acked`. -/
def onAckEcnStep (c6 : ConnA) (now : Nat) (sp : SpaceId) (ack : AckFrame)
    (new_largest : Bool) (newly_len : Nat) : ConnA :=
  if c6.sending_ecn then
    match ack.ecn with
    | some ecn =>
        if new_largest then
          process_ecnA c6 now sp newly_len ecn
            ((c6.getSpace sp).largest_acked_packet_sent)
        else c6
    | none => { c6 with sending_ecn := false }
  else c6

/-- The closing block of `on_ack_received`: wake the blocked streams when the
connection just became unblocked. -/
def onAckDrainStep (c8 : ConnA) (was_blocked : Bool) : ConnA :=
  if was_blocked = true ∧ blockedA c8 = false then
    { c8 with
      events := c8.events ++ c8.blocked_streams.map EventA.streamWritable
      blocked_streams := [] }
  else c8

/-- Everything `on_ack_received` does after newly-acked packets were
processed: the key-discard check, loss detection, backoff reset, ECN, the
loss-detection timer, and the blocked-stream drain, in source order. -/
def onAckFinish (c3 : ConnA) (now : Nat) (sp : SpaceId) (ack : AckFrame)
    (new_largest : Bool) (newly_len : Nat) (was_blocked : Bool) : ConnA :=
  onAckDrainStep
    (set_loss_detection_timerA
      (onAckEcnStep
        ({ detect_lost_packetsA (onAckKeyDiscardStep c3 now sp) now sp with
            crypto_count := 0, pto_count := 0 })
        now sp ack new_largest newly_len))
    was_blocked

/-- Embeds `Connection::on_ack_received`, assembled from the staged blocks above in
source order. -/
def on_ack_receivedA (c : ConnA) (now : Nat) (sp : SpaceId)
    (ack : AckFrame) : ConnA :=
  let was_blocked := blockedA c
  let step1 := onAckLargestStep c sp ack.largest
  let c2 := onAckRttStep step1.1 now sp ack
  let newly := newlyAcked ack.ranges ((c2.getSpace sp).sent_packets)
  if newly = [] then c2
  else
    onAckFinish (newly.foldl (fun c pn => on_packet_ackedA c sp pn) c2)
      now sp ack step1.2 newly.length was_blocked

/-- Concrete Data packet space holding packets 1, 2, 3 (C8 witness). -/
def spW : PacketSpaceA :=
  { sent_packets := [(1, sentAt 100), (2, sentAt 200), (3, sentAt 300)]
    largest_acked_packet := 0
    largest_acked_packet_sent := 0
    pending := Retransmits.default
    pending_acks := []
    loss_time := none
    has_keys := true
    ecn_feedback := ⟨0, 0, 0⟩ }

/-- Concrete empty packet space (C8 witness). -/
def spEmptyW : PacketSpaceA :=
  { sent_packets := []
    largest_acked_packet := 0
    largest_acked_packet_sent := 0
    pending := Retransmits.default
    pending_acks := []
    loss_time := none
    has_keys := false
    ecn_feedback := ⟨0, 0, 0⟩ }

/-- Concrete established connection with three 1-RTT packets in flight (C8
witness). -/
def cW : ConnA :=
  { spInitial := spEmptyW
    spHandshake := spEmptyW
    spData := spW
    in_flight := ⟨3600, 0, 3⟩
    rtt := { latest := 0, smoothed := none, var := 0, min := 1000000 }
    cc := { congestion_window := 12000, recovery_start_time := 0
            ssthresh := 1000000 }
    crypto_count := 0
    pto_count := 0
    sending_ecn := false
    stage := .established
    is_client := true
    cfg := cfgW
    ack_delay_exponent := 3
    max_ack_delay := 25000
    mtu := 1200
    max_data := 100000
    data_sent := 0
    unacked_data := 0
    lost_packets := 0
    time_of_last_sent_ack_eliciting_packet := 0
    time_of_last_sent_crypto_packet := 0
    prev_crypto_update_ack_time := none
    timer_loss := none
    timer_key_discard := none
    streams := []
    blocked_streams := []
    events := [] }

/-- Concrete ACK frame acknowledging packets 1-3 (C8 witness). -/
def ackW : AckFrame :=
  { largest := 3, delay := 8, ranges := [(1, 4)], ecn := none }

/-- Concrete 16-byte stateless-reset token (C7 witness). -/
def tok16 : List Nat := [0, 1, 2, 3, 4, 5, 6, 7, 8, 9, 10, 11, 12, 13, 14, 15]

/-- Established connection knowing `tok16` (C7 witness). -/
def c7w : Conn7 :=
  { state := .established, stateless_reset_token := some tok16
    events := [], endpoint_events := [], io_close := false }

/-- Helper: `listSum` distributes over append. -/
theorem listSum_append (f : SentPacket → Nat) (l1 l2 : List (Nat × SentPacket)) :
    listSum f (l1 ++ l2) = listSum f l1 + listSum f l2 := by
  simp [listSum]

/-- Helper: a `listSum` splits along a filter. -/
theorem listSum_filter (f : SentPacket → Nat) (p : Nat × SentPacket → Bool)
    (l : List (Nat × SentPacket)) :
    listSum f l =
      listSum f (l.filter p) + listSum f (l.filter (fun e => !p e)) := by
  induction l with
  | nil => simp [listSum]
  | cons a as ih =>
    by_cases h : p a
    · simp [listSum, List.filter_cons, h] at *
      omega
    · simp [listSum, List.filter_cons, h] at *
      omega

/-- Helper: removing a looked-up entry removes exactly its statistic. -/
theorem listSum_erase (f : SentPacket → Nat) (pn : Nat)
    (l : List (Nat × SentPacket)) (p : SentPacket)
    (h : alLookup pn l = some p) :
    listSum f l = f p + listSum f (alErase pn l) := by
  induction l with
  | nil => simp [alLookup] at h
  | cons a as ih =>
    by_cases ha : a.1 = pn
    · simp only [alLookup, ha, if_true] at h
      cases h
      simp [alErase, ha, listSum]
    · simp only [alLookup, ha, if_false] at h
      have hr := ih h
      simp only [alErase, ha, if_false, listSum, List.map_cons,
        List.sum_cons] at *
      omega

/-- Helper: `InFlight.removeAll` subtracts the batch's statistics exactly when
the counters dominate them. -/
theorem removeAll_spec (ps : List SentPacket) (fl : InFlight) (rb rc ra : Nat)
    (hb : fl.bytes = (ps.map szB).sum + rb)
    (hc : fl.crypto = (ps.map cryB).sum + rc)
    (ha : fl.ack_eliciting = (ps.map ackB).sum + ra) :
    InFlight.removeAll fl ps = ⟨rb, rc, ra⟩ := by
  induction ps generalizing fl with
  | nil =>
    simp only [List.map_nil, List.sum_nil, Nat.zero_add] at hb hc ha
    cases fl
    simp [InFlight.removeAll]
    exact ⟨hb, hc, ha⟩
  | cons p ps ih =>
    simp only [InFlight.removeAll, List.foldl_cons, List.map_cons,
      List.sum_cons] at *
    apply ih
    · simp only [InFlight.remove, szB] at *
      omega
    · simp only [InFlight.remove, cryB] at *
      cases hcp : p.is_crypto_packet <;> simp [hcp] at * <;> omega
    · simp only [InFlight.remove, ackB] at *
      cases hae : p.ack_eliciting <;> simp [hae] at * <;> omega

/-- Helper: statistics of the packets alone agree with the map's. -/
theorem map_snd_sum (f : SentPacket → Nat) (l : List (Nat × SentPacket)) :
    ((l.map Prod.snd).map f).sum = listSum f l := by
  induction l with
  | nil => simp [listSum]
  | cons a as ih =>
    simp only [listSum, List.map_cons, List.sum_cons] at *
    omega

/-- Helper: draining one space preserves the in-flight invariant. -/
theorem inFlightInv_clearSpace (c : Conn2) (id : SpaceId)
    (h : inFlightInv c) : inFlightInv (clearSpace c id) := by
  obtain ⟨hb, hc, ha⟩ := h
  cases id
  case initial =>
    have hfl : c.in_flight.removeAll (c.initial_space.sent_packets.map Prod.snd)
        = ⟨listSum szB c.hs_space.sent_packets +
             listSum szB c.data_space.sent_packets,
           listSum cryB c.hs_space.sent_packets +
             listSum cryB c.data_space.sent_packets,
           listSum ackB c.hs_space.sent_packets +
             listSum ackB c.data_space.sent_packets⟩ := by
      apply removeAll_spec <;> rw [map_snd_sum] <;> omega
    simp [clearSpace, Conn2.space, Conn2.setSpace, inFlightInv, hfl, listSum]
  case handshake =>
    have hfl : c.in_flight.removeAll (c.hs_space.sent_packets.map Prod.snd)
        = ⟨listSum szB c.initial_space.sent_packets +
             listSum szB c.data_space.sent_packets,
           listSum cryB c.initial_space.sent_packets +
             listSum cryB c.data_space.sent_packets,
           listSum ackB c.initial_space.sent_packets +
             listSum ackB c.data_space.sent_packets⟩ := by
      apply removeAll_spec <;> rw [map_snd_sum] <;> omega
    simp [clearSpace, Conn2.space, Conn2.setSpace, inFlightInv, hfl, listSum]
  case data =>
    have hfl : c.in_flight.removeAll (c.data_space.sent_packets.map Prod.snd)
        = ⟨listSum szB c.initial_space.sent_packets +
             listSum szB c.hs_space.sent_packets,
           listSum cryB c.initial_space.sent_packets +
             listSum cryB c.hs_space.sent_packets,
           listSum ackB c.initial_space.sent_packets +
             listSum ackB c.hs_space.sent_packets⟩ := by
      apply removeAll_spec <;> rw [map_snd_sum] <;> omega
    simp [clearSpace, Conn2.space, Conn2.setSpace, inFlightInv, hfl, listSum]

/-- Helper: one `rem_cids` operation preserves the 32-entry bound. -/
theorem applyRemCidOp_length (cids : List NewConnectionId) (op : RemCidOp)
    (h : cids.length ≤ 32) : (applyRemCidOp cids op).length ≤ 32 := by
  cases op with
  | newCid hasResetToken frame =>
    by_cases htok : hasResetToken
    · by_cases hlen : cids.length < 32
      · simp [applyRemCidOp, htok, hlen]
        omega
      · simp [applyRemCidOp, htok, hlen]
        exact h
    · simp [applyRemCidOp, htok]
      exact h
  | popForMigration =>
    simp [applyRemCidOp]
    omega

end Quinn

namespace Quinn

/-! ## Claim theorems -/

/-- C5: on a congestion event with `sent_time` after the recovery epoch start,
`recovery_start_time` becomes `now` and the congestion window and `ssthresh`
both become `max(cwnd × loss_reduction_factor / 65536, minimum_window)`;
with `sent_time` inside the epoch, nothing changes. -/
theorem C5_congestion_event (cfg : TransportConfig) (now sent_time : Nat)
    (s : CongestionState) :
    (s.recovery_start_time < sent_time →
      congestion_event cfg now sent_time s =
        { congestion_window :=
            max (s.congestion_window * cfg.loss_reduction_factor / 65536)
              cfg.minimum_window
          recovery_start_time := now
          ssthresh :=
            max (s.congestion_window * cfg.loss_reduction_factor / 65536)
              cfg.minimum_window }) ∧
    (sent_time ≤ s.recovery_start_time →
      congestion_event cfg now sent_time s = s) := by
  constructor
  · intro h
    have hrec : in_recovery s sent_time = false := by
      simp [in_recovery]
      omega
    simp [congestion_event, hrec, Nat.shiftRight_eq_div_pow]
  · intro h
    have hrec : in_recovery s sent_time = true := by
      simp [in_recovery, h]
    simp [congestion_event, hrec]

/-- C5 witness: the NewReno scenario of spec §8 — cwnd 24000, factor 32768
(one half), minimum window 2400: the window and ssthresh drop to 12000. -/
theorem C5_congestion_event_witness :
    congestion_event
        { loss_reduction_factor := 32768, minimum_window := 2400
          time_threshold := 9 * 8192, packet_threshold := 3
          persistent_congestion_threshold := 3, max_datagram_size := 1200
          initial_rtt := 100000, send_window := 800000 }
        100 20
        { congestion_window := 24000, recovery_start_time := 10
          ssthresh := 1000000 } =
      { congestion_window := 12000, recovery_start_time := 100
        ssthresh := 12000 } := by
  have h :=
    (C5_congestion_event
      { loss_reduction_factor := 32768, minimum_window := 2400
        time_threshold := 9 * 8192, packet_threshold := 3
        persistent_congestion_threshold := 3, max_datagram_size := 1200
        initial_rtt := 100000, send_window := 800000 }
      100 20
      { congestion_window := 24000, recovery_start_time := 10
        ssthresh := 1000000 }).1 (by decide)
  rw [h]
  decide

/-- C1 counterexample to the claim as stated: a validated server sends 4800
bytes after the handshake against only 1200 bytes received, then a path
migration clears `remote_validated`. The resulting reachable state has
`remote_validated = false` and `total_sent = 4800 > 3600 = 3 × total_recvd`,
because the gate in `poll_transmit` only applies while `state.is_handshake()`. -/
theorem C1_counterexample :
    ampRun ampInit
        [.recv 1200, .validate, .establish, .transmit 1200, .transmit 1200,
          .transmit 1200, .transmit 1200, .migrate] =
      some { is_server := true, is_handshake := false, remote_validated := false
             total_recvd := 1200, total_sent := 4800, mtu := 1200 } ∧
    ¬(4800 ≤ 3 * 1200) := by
  constructor
  · decide
  · decide

/-- C1 amended: any packet the server emits while still in the Handshake state
with `remote_validated = false` leaves `total_sent ≤ 3 × total_recvd`; outside
the Handshake state the code does not enforce the bound. -/
theorem C1_amp_gate (s s' : AmpState) (len : Nat)
    (hsrv : s.is_server = true) (hhs : s.is_handshake = true)
    (hval : s.remote_validated = false)
    (h : applyAmpOp s (.transmit len) = some s') :
    s'.total_sent ≤ 3 * s'.total_recvd := by
  simp only [applyAmpOp] at h
  split at h
  case isTrue hc =>
    cases h
    simp only [ampBlocked, hsrv, hhs, hval, Bool.and_eq_true, Bool.not_eq_true',
      decide_eq_true_eq, decide_eq_false_iff_not, Bool.not_true, Bool.true_and,
      Bool.not_false] at hc
    obtain ⟨hlen, hgate⟩ := hc
    simp only []
    omega
  case isFalse => cases h

/-- C1 amended witness: a handshaking unvalidated server with 400 bytes
received and nothing sent may emit a 1000-byte packet, landing at
`1000 ≤ 1200 = 3 × 400`. -/
theorem C1_amp_gate_witness :
    (⟨true, true, false, 400, 1000, 1200⟩ : AmpState).total_sent ≤
      3 * (⟨true, true, false, 400, 1000, 1200⟩ : AmpState).total_recvd :=
  C1_amp_gate ⟨true, true, false, 400, 0, 1200⟩
    ⟨true, true, false, 400, 1000, 1200⟩ 1000 rfl rfl rfl (by decide)

/-- C2: every operation that moves packets in or out of the `sent_packets`
maps preserves the in-flight invariant. -/
theorem inFlightInv_apply (c : Conn2) (op : Op2) (h : inFlightInv c) :
    inFlightInv (applyOp2 c op) := by
  obtain ⟨hb, hc, ha⟩ := h
  cases op with
  | send id p =>
    cases id <;>
      (simp only [applyOp2, Conn2.space, Conn2.setSpace, inFlightInv,
        InFlight.insert, listSum_append] at *
       refine ⟨?_, ?_, ?_⟩ <;>
         (first
           | (simp only [listSum, List.map_cons, List.map_nil, List.sum_cons,
                List.sum_nil, szB] at *
              omega)
           | (simp only [listSum, List.map_cons, List.map_nil, List.sum_cons,
                List.sum_nil, cryB, ackB] at *
              cases hcp : p.is_crypto_packet <;>
                cases hae : p.ack_eliciting <;> simp_all <;> omega)))
  | ackPacket id pn =>
    cases id
    case initial =>
      simp only [applyOp2, Conn2.space]
      cases hl : alLookup pn c.initial_space.sent_packets with
      | none => exact ⟨hb, hc, ha⟩
      | some p =>
        have h1 := listSum_erase szB pn _ p hl
        have h2 := listSum_erase cryB pn _ p hl
        have h3 := listSum_erase ackB pn _ p hl
        simp only [Conn2.setSpace, inFlightInv, InFlight.remove] at *
        refine ⟨?_, ?_, ?_⟩
        · simp only [szB] at *; omega
        · simp only [cryB] at *
          cases hcp : p.is_crypto_packet <;> simp_all <;> omega
        · simp only [ackB] at *
          cases hae : p.ack_eliciting <;> simp_all <;> omega
    case handshake =>
      simp only [applyOp2, Conn2.space]
      cases hl : alLookup pn c.hs_space.sent_packets with
      | none => exact ⟨hb, hc, ha⟩
      | some p =>
        have h1 := listSum_erase szB pn _ p hl
        have h2 := listSum_erase cryB pn _ p hl
        have h3 := listSum_erase ackB pn _ p hl
        simp only [Conn2.setSpace, inFlightInv, InFlight.remove] at *
        refine ⟨?_, ?_, ?_⟩
        · simp only [szB] at *; omega
        · simp only [cryB] at *
          cases hcp : p.is_crypto_packet <;> simp_all <;> omega
        · simp only [ackB] at *
          cases hae : p.ack_eliciting <;> simp_all <;> omega
    case data =>
      simp only [applyOp2, Conn2.space]
      cases hl : alLookup pn c.data_space.sent_packets with
      | none => exact ⟨hb, hc, ha⟩
      | some p =>
        have h1 := listSum_erase szB pn _ p hl
        have h2 := listSum_erase cryB pn _ p hl
        have h3 := listSum_erase ackB pn _ p hl
        simp only [Conn2.setSpace, inFlightInv, InFlight.remove] at *
        refine ⟨?_, ?_, ?_⟩
        · simp only [szB] at *; omega
        · simp only [cryB] at *
          cases hcp : p.is_crypto_packet <;> simp_all <;> omega
        · simp only [ackB] at *
          cases hae : p.ack_eliciting <;> simp_all <;> omega
  | detectLost id lst lpn la =>
    cases id
    case initial =>
      have hsb := listSum_filter szB (packetLost lst lpn la)
        c.initial_space.sent_packets
      have hsc := listSum_filter cryB (packetLost lst lpn la)
        c.initial_space.sent_packets
      have hsa := listSum_filter ackB (packetLost lst lpn la)
        c.initial_space.sent_packets
      have hfl : c.in_flight.removeAll
          ((c.initial_space.sent_packets.filter
            (packetLost lst lpn la)).map Prod.snd)
          = ⟨listSum szB (c.initial_space.sent_packets.filter
                (fun e => !packetLost lst lpn la e)) +
               listSum szB c.hs_space.sent_packets +
               listSum szB c.data_space.sent_packets,
             listSum cryB (c.initial_space.sent_packets.filter
                (fun e => !packetLost lst lpn la e)) +
               listSum cryB c.hs_space.sent_packets +
               listSum cryB c.data_space.sent_packets,
             listSum ackB (c.initial_space.sent_packets.filter
                (fun e => !packetLost lst lpn la e)) +
               listSum ackB c.hs_space.sent_packets +
               listSum ackB c.data_space.sent_packets⟩ := by
        apply removeAll_spec <;> rw [map_snd_sum] <;> omega
      simp [applyOp2, Conn2.space, Conn2.setSpace, inFlightInv, hfl]
    case handshake =>
      have hsb := listSum_filter szB (packetLost lst lpn la)
        c.hs_space.sent_packets
      have hsc := listSum_filter cryB (packetLost lst lpn la)
        c.hs_space.sent_packets
      have hsa := listSum_filter ackB (packetLost lst lpn la)
        c.hs_space.sent_packets
      have hfl : c.in_flight.removeAll
          ((c.hs_space.sent_packets.filter
            (packetLost lst lpn la)).map Prod.snd)
          = ⟨listSum szB c.initial_space.sent_packets +
               listSum szB (c.hs_space.sent_packets.filter
                (fun e => !packetLost lst lpn la e)) +
               listSum szB c.data_space.sent_packets,
             listSum cryB c.initial_space.sent_packets +
               listSum cryB (c.hs_space.sent_packets.filter
                (fun e => !packetLost lst lpn la e)) +
               listSum cryB c.data_space.sent_packets,
             listSum ackB c.initial_space.sent_packets +
               listSum ackB (c.hs_space.sent_packets.filter
                (fun e => !packetLost lst lpn la e)) +
               listSum ackB c.data_space.sent_packets⟩ := by
        apply removeAll_spec <;> rw [map_snd_sum] <;> omega
      simp [applyOp2, Conn2.space, Conn2.setSpace, inFlightInv, hfl]
    case data =>
      have hsb := listSum_filter szB (packetLost lst lpn la)
        c.data_space.sent_packets
      have hsc := listSum_filter cryB (packetLost lst lpn la)
        c.data_space.sent_packets
      have hsa := listSum_filter ackB (packetLost lst lpn la)
        c.data_space.sent_packets
      have hfl : c.in_flight.removeAll
          ((c.data_space.sent_packets.filter
            (packetLost lst lpn la)).map Prod.snd)
          = ⟨listSum szB c.initial_space.sent_packets +
               listSum szB c.hs_space.sent_packets +
               listSum szB (c.data_space.sent_packets.filter
                (fun e => !packetLost lst lpn la e)),
             listSum cryB c.initial_space.sent_packets +
               listSum cryB c.hs_space.sent_packets +
               listSum cryB (c.data_space.sent_packets.filter
                (fun e => !packetLost lst lpn la e)),
             listSum ackB c.initial_space.sent_packets +
               listSum ackB c.hs_space.sent_packets +
               listSum ackB (c.data_space.sent_packets.filter
                (fun e => !packetLost lst lpn la e))⟩ := by
        apply removeAll_spec <;> rw [map_snd_sum] <;> omega
      simp [applyOp2, Conn2.space, Conn2.setSpace, inFlightInv, hfl]
  | discard id =>
    have hcl := inFlightInv_clearSpace c id ⟨hb, hc, ha⟩
    obtain ⟨h1, h2, h3⟩ := hcl
    cases id <;>
      simp_all [applyOp2, Conn2.space, Conn2.setSpace, clearSpace, inFlightInv]
  | retransmitHandshake =>
    simp only [applyOp2]
    have hc1 : inFlightInv
        (if c.initial_space.has_keys then clearSpace c .initial else c) := by
      split
      · exact inFlightInv_clearSpace c .initial ⟨hb, hc, ha⟩
      · exact ⟨hb, hc, ha⟩
    have key : ∀ c2 : Conn2, inFlightInv c2 →
        inFlightInv
          (if c2.hs_space.has_keys = true then clearSpace c2 .handshake
           else c2) := by
      intro c2 h2
      split
      · exact inFlightInv_clearSpace _ .handshake h2
      · exact h2
    exact key _ hc1
  | reject0rtt => exact inFlightInv_clearSpace c .data ⟨hb, hc, ha⟩

/-- C2: in every state reachable by any sequence of packet-send, ack,
loss-detection, space-discard, handshake-retransmit and 0-RTT-rejection
operations, `in_flight.bytes` equals the total `SentPacket.size` over all
spaces' `sent_packets`, and `in_flight.crypto` / `in_flight.ack_eliciting`
equal the counts of stored packets with `is_crypto_packet` respectively
`ack_eliciting` set. -/
theorem C2_in_flight_invariant (ops : List Op2) :
    inFlightInv (ops.foldl applyOp2 Conn2.init) := by
  have key : ∀ (ops : List Op2) (c : Conn2), inFlightInv c →
      inFlightInv (ops.foldl applyOp2 c) := by
    intro ops
    induction ops with
    | nil => intro c h; simpa using h
    | cons op rest ih => intro c h; exact ih _ (inFlightInv_apply c op h)
  exact key ops Conn2.init ⟨rfl, rfl, rfl⟩

/-- Helper: `optMin` with an empty right argument. -/
theorem optMin_none (a : Option Nat) : optMin a none = a := by
  cases a <;> rfl

/-- Helper: `optMin` is associative. -/
theorem optMin_assoc (a b c : Option Nat) :
    optMin (optMin a b) c = optMin a (optMin b c) := by
  cases a <;> cases b <;> cases c <;> simp [optMin, Nat.min_assoc]

/-- Helper: membership in the lost list produced by the loss scan. -/
theorem detectLostScan_mem (lst lpn ld largest : Nat)
    (l : List (Nat × SentPacket)) (lt : Option Nat) (pn : Nat) :
    pn ∈ (detectLostScan lst lpn ld largest l lt).1 ↔
      ∃ p, (pn, p) ∈ l ∧ pn < largest ∧ (p.time_sent ≤ lst ∨ pn ≤ lpn) := by
  induction l generalizing lt with
  | nil => simp [detectLostScan]
  | cons e es ih =>
    by_cases h1 : e.1 < largest
    · by_cases h2 : e.2.time_sent ≤ lst ∨ e.1 ≤ lpn
      · rw [detectLostScan, if_pos h1, if_pos h2]
        simp only [List.mem_cons]
        constructor
        · rintro (rfl | hm)
          · exact ⟨e.2, Or.inl (by simp), h1, h2⟩
          · obtain ⟨p, hp, h3, h4⟩ := (ih lt).mp hm
            exact ⟨p, Or.inr hp, h3, h4⟩
        · rintro ⟨p, hp | hp, h3, h4⟩
          · subst hp
            exact Or.inl rfl
          · exact Or.inr ((ih lt).mpr ⟨p, hp, h3, h4⟩)
      · rw [detectLostScan, if_pos h1, if_neg h2]
        rw [ih]
        constructor
        · rintro ⟨p, hp, h3, h4⟩
          exact ⟨p, List.mem_cons_of_mem _ hp, h3, h4⟩
        · rintro ⟨p, hp, h3, h4⟩
          rcases List.mem_cons.mp hp with hpe | hpe
          · cases hpe
            exact absurd h4 h2
          · exact ⟨p, hpe, h3, h4⟩
    · rw [detectLostScan, if_neg h1]
      rw [ih]
      constructor
      · rintro ⟨p, hp, h3, h4⟩
        exact ⟨p, List.mem_cons_of_mem _ hp, h3, h4⟩
      · rintro ⟨p, hp, h3, h4⟩
        rcases List.mem_cons.mp hp with hpe | hpe
        · cases hpe
          exact absurd h3 h1
        · exact ⟨p, hpe, h3, h4⟩

/-- Helper: the `loss_time` computed by the loss scan is the minimum
projected loss deadline over the surviving candidates. -/
theorem detectLostScan_loss_time (lst lpn ld largest : Nat)
    (l : List (Nat × SentPacket)) (lt : Option Nat) :
    (detectLostScan lst lpn ld largest l lt).2 =
      optMin lt (listMinO ((l.filter (lossCandidateAlive lst lpn largest)).map
        (fun e => e.2.time_sent + ld))) := by
  induction l generalizing lt with
  | nil => simp [detectLostScan, listMinO, optMin_none]
  | cons e es ih =>
    by_cases h1 : e.1 < largest
    · by_cases h2 : e.2.time_sent ≤ lst ∨ e.1 ≤ lpn
      · have halive : lossCandidateAlive lst lpn largest e = false := by
          rcases h2 with h2 | h2 <;> simp [lossCandidateAlive, h2]
        rw [detectLostScan, if_pos h1, if_pos h2]
        simp only [List.filter_cons, halive]
        simp only [Bool.false_eq_true, if_false]
        exact ih lt
      · have halive : lossCandidateAlive lst lpn largest e = true := by
          rw [not_or] at h2
          simp [lossCandidateAlive, h1, h2.1, h2.2]
        rw [detectLostScan, if_pos h1, if_neg h2]
        rw [ih]
        simp only [List.filter_cons, halive, if_true, List.map_cons, listMinO]
        rw [← optMin_assoc]
    · have halive : lossCandidateAlive lst lpn largest e = false := by
        simp [lossCandidateAlive, h1]
      rw [detectLostScan, if_neg h1]
      rw [ih]
      simp only [List.filter_cons, halive]
      simp only [Bool.false_eq_true, if_false]

/-- C4: in `detect_lost_packets`, a sent packet is declared lost iff it lies
below `largest_acked` and either was sent no later than `now - loss_delay`
(with `loss_delay = max(smoothed, latest) × (1 + time_threshold/65536)`, the
Q16 product computed as `rtt + rtt*time_threshold/65536`) or its number is at
most `largest_acked - packet_threshold`; and the space's new `loss_time` is
the minimum of `time_sent + loss_delay` over the candidates not declared
lost. The hypothesis keeps the truncated `now - loss_delay` in step with the
source's panicking `Instant` subtraction. -/
theorem C4_detect_lost (cfg : TransportConfig) (rtt : RttEstimator)
    (now largest : Nat) (l : List (Nat × SentPacket))
    (hnow : lossDelay cfg rtt ≤ now) :
    (∀ pn, pn ∈ (detect_lost_packets cfg rtt now largest l).1 ↔
        ∃ p, (pn, p) ∈ l ∧ pn < largest ∧
          (p.time_sent ≤ now - lossDelay cfg rtt ∨
            pn ≤ largest - cfg.packet_threshold)) ∧
    (detect_lost_packets cfg rtt now largest l).2 =
      listMinO ((l.filter (lossCandidateAlive (now - lossDelay cfg rtt)
          (largest - cfg.packet_threshold) largest)).map
        (fun e => e.2.time_sent + lossDelay cfg rtt)) := by
  constructor
  · intro pn
    exact detectLostScan_mem (now - lossDelay cfg rtt)
      (largest - cfg.packet_threshold) (lossDelay cfg rtt) largest l none pn
  · exact detectLostScan_loss_time (now - lossDelay cfg rtt)
      (largest - cfg.packet_threshold) (lossDelay cfg rtt) largest l none

/-- C4 witness: with smoothed RTT 100µs, latest 80µs and Q16 time threshold
8192 (factor 1.125), `loss_delay = 112`; at `now = 1000` with
`largest_acked = 10` and `packet_threshold = 3`, packet 1 is lost and the
survivors 8 and 9 give `loss_time = min(1012, 1062) = 1012`. -/
theorem C4_detect_lost_witness :
    (detect_lost_packets cfgW rttW 1000 10 lW).1 = [1] ∧
    (detect_lost_packets cfgW rttW 1000 10 lW).2 =
      listMinO ((lW.filter (lossCandidateAlive (1000 - lossDelay cfgW rttW)
          (10 - cfgW.packet_threshold) 10)).map
        (fun e => e.2.time_sent + lossDelay cfgW rttW)) :=
  ⟨by decide, (C4_detect_lost cfgW rttW 1000 10 lW (by decide)).2⟩

/-- C3 counterexample to the claim as stated: on a congestion-blocked
connection (`cwnd - in_flight < mtu`) with every flow-control budget positive
(the claim's `min(conn_budget, stream_budget, len) = 3 > 0`), `write` returns
`Blocked` instead of `Ok(3)`. -/
theorem C3_counterexample :
    (write c3x 0 [7, 7, 7]).2 = .error .blocked ∧
    min (min (min (c3x.max_data - c3x.data_sent)
        (c3x.send_window - c3x.unacked_data)) (ssW.max_data - ssW.offset))
      ([7, 7, 7] : List Nat).length = 3 :=
  ⟨rfl, rfl⟩

/-- C3 amended: when the connection is not closed and not blocked at
connection level (flow control or congestion), `write` on a known Ready
stream queues and returns `min(conn_budget, stream_budget, len(data))` bytes
when the stream budget is positive, returns `Blocked` when the stream budget
is zero, returns `Stopped{code}` when the peer sent STOP_SENDING, and
`UnknownStream` for an unknown stream; a closed or connection-blocked or
congestion-blocked connection yields `Blocked` before any of these. -/
theorem C3_write (c : Conn3) (id : StreamId) (data : List Nat)
    (hnc : c.stage ≠ .closed) (hblk : conn3Blocked c = false) :
    (∀ ss, sLookup id c.streams = some ss → ss.state = .ready →
      (0 < ss.max_data - ss.offset →
        write c id data =
          (queue_stream_data c id ss
            (min (min (min (c.max_data - c.data_sent)
                (c.send_window - c.unacked_data)) (ss.max_data - ss.offset))
              data.length) data,
           .ok (min (min (min (c.max_data - c.data_sent)
                (c.send_window - c.unacked_data)) (ss.max_data - ss.offset))
              data.length))) ∧
      (ss.max_data - ss.offset = 0 → write c id data = (c, .error .blocked))) ∧
    (∀ ss code, sLookup id c.streams = some ss →
      stopReason ss.state = some code →
      (write c id data).2 = .error (.stopped code)) ∧
    (sLookup id c.streams = none →
      write c id data = (c, .error .unknownStream)) := by
  refine ⟨?_, ?_, ?_⟩
  · intro ss hss hready
    constructor
    · intro hpos
      unfold write
      rw [if_neg hnc, if_neg (by simp [hblk])]
      simp only [hss, write_budget, hready, stopReason]
      rw [if_neg (by omega)]
    · intro hzero
      unfold write
      rw [if_neg hnc, if_neg (by simp [hblk])]
      simp only [hss, write_budget, hready, stopReason]
      rw [if_pos hzero]
  · intro ss code hss hstop
    unfold write
    rw [if_neg hnc, if_neg (by simp [hblk])]
    simp only [hss, write_budget, hstop]
  · intro hnone
    unfold write
    rw [if_neg hnc, if_neg (by simp [hblk])]
    simp only [hnone]

/-- C3 amended witness: an unblocked connection with a Ready stream of budget
5000 accepts a 3-byte write whole. -/
theorem C3_write_witness : (write c3w 0 [1, 2, 3]).2 = .ok 3 := by
  have h := ((C3_write c3w 0 [1, 2, 3] (by decide) rfl).1 ssW
    rfl rfl).1 (by decide)
  rw [h]
  rfl

/-- C9 counterexample to the claim as stated: a write blocked purely by the
stream-level budget returns `Blocked` yet records nothing in
`blocked_streams` (the set only tracks connection-level blocks,
`connection.rs` line 55 and 2677). -/
theorem C9_counterexample :
    (write c9x 0 [1]).2 = .error .blocked ∧
    (write c9x 0 [1]).1.blocked_streams = [] :=
  ⟨rfl, rfl⟩

/-- C9 amended: a write refused by the connection-level check records the
stream id in `blocked_streams`, and a MAX_DATA frame that unblocks the
connection wakes every recorded id with `StreamWritable` and drains the set
(an unblocking ACK triggers the same drain in `on_ack_received`). -/
theorem C9_blocked_streams (c : Conn3) (id : StreamId) (data : List Nat)
    (bytes : Nat) (hnc : c.stage ≠ .closed) (hblk : conn3Blocked c = true)
    (hwake : conn3Blocked { c with max_data := max bytes c.max_data } = false) :
    write c id data =
      ({ c with blocked_streams := insertBlocked id c.blocked_streams },
        .error .blocked) ∧
    handleMaxData c bytes =
      { c with max_data := max bytes c.max_data
               events := c.events ++ c.blocked_streams.map Event3.streamWritable
               blocked_streams := [] } := by
  constructor
  · unfold write
    rw [if_neg hnc, if_pos hblk]
  · simp [handleMaxData, hblk, hwake]

/-- C9 amended witness: a flow-control-blocked connection records stream 5 on
a refused write, and MAX_DATA 40000 wakes the recorded stream 4. -/
theorem C9_blocked_streams_witness :
    write c9w 5 [1] =
      ({ c9w with blocked_streams := [4, 5] }, .error .blocked) ∧
    handleMaxData c9w 40000 =
      { c9w with max_data := 40000, events := [.streamWritable 4]
                 blocked_streams := [] } := by
  have h := C9_blocked_streams c9w 5 [1] 40000 (by decide) rfl rfl
  constructor
  · rw [h.1]
    rfl
  · rw [h.2]
    rfl

/-- C6: after `update_keys` installs `prev_crypto` with `end_packet = e`,
a 1-RTT packet whose key-phase bit differs from the current phase selects the
previous-generation keys when its number is below `e` and the next-generation
keys when its number is at least `e`; a packet with the matching phase always
selects the current keys. -/
theorem C6_key_update_selection (ks0 : KeyState) (e number : Nat)
    (phase : Bool) (hphase : phase ≠ (update_keys ks0 e).key_phase) :
    (number < e →
      selectKeys false .data phase number (update_keys ks0 e) = .previous) ∧
    (e ≤ number →
      selectKeys false .data phase number (update_keys ks0 e) = .nextGen) ∧
    (∀ n, selectKeys false .data (update_keys ks0 e).key_phase n
      (update_keys ks0 e) = .current) := by
  refine ⟨?_, ?_, ?_⟩
  · intro hlt
    simp only [update_keys] at hphase ⊢
    simp [selectKeys, hphase, hlt]
  · intro hge
    simp only [update_keys] at hphase ⊢
    simp [selectKeys, hphase, Nat.not_lt.mpr hge]
  · intro n
    simp [selectKeys]

/-- C6 witness: after a key update at `end_packet = 10` flips the phase to 1,
an old-phase packet numbered 5 uses the previous keys, one numbered 10 the
next generation, and a matching-phase packet the current keys. -/
theorem C6_key_update_selection_witness :
    selectKeys false .data false 5 (update_keys ⟨false, none⟩ 10) =
      .previous ∧
    selectKeys false .data false 10 (update_keys ⟨false, none⟩ 10) =
      .nextGen ∧
    selectKeys false .data (update_keys ⟨false, none⟩ 10).key_phase 3
      (update_keys ⟨false, none⟩ 10) = .current :=
  ⟨(C6_key_update_selection ⟨false, none⟩ 10 5 false (by decide)).1
      (by decide),
   (C6_key_update_selection ⟨false, none⟩ 10 10 false (by decide)).2.1
      (by decide),
   (C6_key_update_selection ⟨false, none⟩ 10 0 false (by decide)).2.2 3⟩

/-- C7: an authentication failure on a packet whose trailing
`RESET_TOKEN_SIZE` bytes match the known stateless-reset token moves the
connection to `Drained` and emits exactly one `ConnectionLost{Reset}`
application event and one `Drained` endpoint event; any other authentication
failure leaves the connection untouched. -/
theorem C7_stateless_reset (c : Conn7) (payload : List Nat)
    (hnd : c.state ≠ .drained) :
    (stateless_reset_detected c.stateless_reset_token payload = true →
      handle_auth_failed_packet c payload =
        { c with
          state := State7.drained
          events := c.events ++ [.connectionLostReset]
          endpoint_events := c.endpoint_events ++ [.drained] }) ∧
    (stateless_reset_detected c.stateless_reset_token payload = false →
      handle_auth_failed_packet c payload = c) := by
  constructor
  · intro hdet
    simp [handle_auth_failed_packet, hdet, hnd]
  · intro hdet
    simp [handle_auth_failed_packet, hdet]

/-- C7 witness: on an established connection knowing `tok16`, a failed packet
ending in `tok16` drains the connection with the two events, and one without
the token suffix changes nothing. -/
theorem C7_stateless_reset_witness :
    handle_auth_failed_packet c7w ([9, 9] ++ tok16) =
      { c7w with
        state := State7.drained
        events := c7w.events ++ [.connectionLostReset]
        endpoint_events := c7w.endpoint_events ++ [.drained] } ∧
    handle_auth_failed_packet c7w [9, 9] = c7w :=
  ⟨(C7_stateless_reset c7w ([9, 9] ++ tok16) (by decide)).1 (by decide),
   (C7_stateless_reset c7w [9, 9] (by decide)).2 (by decide)⟩

/-- Helper: a key is absent exactly when no entry carries it. -/
theorem alLookup_eq_none_iff (pn : Nat) (l : List (Nat × SentPacket)) :
    alLookup pn l = none ↔ ∀ e ∈ l, e.1 ≠ pn := by
  induction l with
  | nil => simp [alLookup]
  | cons e es ih =>
    by_cases h : e.1 = pn
    · simp [alLookup, h]
    · simp [alLookup, h, ih]

/-- Helper: an entry's key is always found. -/
theorem alLookup_ne_none_of_mem (pn : Nat) (p : SentPacket)
    (l : List (Nat × SentPacket)) (h : (pn, p) ∈ l) :
    alLookup pn l ≠ none := by
  intro hnone
  exact (alLookup_eq_none_iff pn l).mp hnone (pn, p) h rfl

/-- Helper: erasing an absent key is a no-op. -/
theorem alErase_of_none (pn : Nat) (l : List (Nat × SentPacket))
    (h : alLookup pn l = none) : alErase pn l = l := by
  induction l with
  | nil => rfl
  | cons e es ih =>
    by_cases he : e.1 = pn
    · simp [alLookup, he] at h
    · simp only [alLookup, he, if_false] at h
      simp [alErase, he, ih h]

/-- Helper: every entry of an erased list came from the original. -/
theorem mem_alErase (pn : Nat) (e : Nat × SentPacket)
    (l : List (Nat × SentPacket)) (h : e ∈ alErase pn l) : e ∈ l := by
  induction l with
  | nil => simp [alErase] at h
  | cons a as ih =>
    by_cases ha : a.1 = pn
    · simp only [alErase, ha, if_true] at h
      exact List.mem_cons_of_mem _ h
    · simp only [alErase, ha, if_false, List.mem_cons] at h
      rcases h with h | h
      · exact h ▸ List.mem_cons_self a as
      · exact List.mem_cons_of_mem _ (ih h)

/-- Helper: an absent key stays absent after any erase. -/
theorem alLookup_alErase_none (pn q : Nat) (l : List (Nat × SentPacket))
    (h : alLookup pn l = none) : alLookup pn (alErase q l) = none := by
  rw [alLookup_eq_none_iff] at h ⊢
  intro e he
  exact h e (mem_alErase q e l he)

/-- Helper: the keys of an erased list form a sublist of the original keys. -/
theorem alErase_keys_sublist (pn : Nat) (l : List (Nat × SentPacket)) :
    ((alErase pn l).map Prod.fst).Sublist (l.map Prod.fst) := by
  induction l with
  | nil => simp [alErase]
  | cons a as ih =>
    by_cases ha : a.1 = pn
    · simp only [alErase, ha, if_true, List.map_cons]
      exact (List.sublist_cons_self _ _)
    · simp only [alErase, ha, if_false, List.map_cons]
      exact List.Sublist.cons₂ _ ih

/-- Helper: erasing a present key under distinct keys removes it. -/
theorem alLookup_alErase_self (pn : Nat) (l : List (Nat × SentPacket))
    (hnodup : (l.map Prod.fst).Nodup) :
    alLookup pn (alErase pn l) = none := by
  induction l with
  | nil => rfl
  | cons a as ih =>
    simp only [List.map_cons, List.nodup_cons] at hnodup
    by_cases ha : a.1 = pn
    · simp only [alErase, ha, if_true]
      rw [alLookup_eq_none_iff]
      intro e he hee
      exact hnodup.1 (ha ▸ hee ▸ List.mem_map_of_mem Prod.fst he)
    · simp only [alErase, ha, if_false, alLookup, if_neg ha]
      exact ih hnodup.2

/-- Helper: erasing preserves key distinctness. -/
theorem alErase_nodup (pn : Nat) (l : List (Nat × SentPacket))
    (hnodup : (l.map Prod.fst).Nodup) :
    ((alErase pn l).map Prod.fst).Nodup :=
  hnodup.sublist (alErase_keys_sublist pn l)

/-- Helper: batch erase keeps absent keys absent. -/
theorem eraseKeys_none_preserved (pns : List Nat) (pn : Nat)
    (m : List (Nat × SentPacket)) (h : alLookup pn m = none) :
    alLookup pn (eraseKeys pns m) = none := by
  induction pns generalizing m with
  | nil => exact h
  | cons q qs ih =>
    simp only [eraseKeys, List.foldl_cons]
    exact ih _ (alLookup_alErase_none pn q m h)

/-- Helper: batch erase preserves key distinctness. -/
theorem eraseKeys_nodup (pns : List Nat) (m : List (Nat × SentPacket))
    (hnodup : (m.map Prod.fst).Nodup) :
    ((eraseKeys pns m).map Prod.fst).Nodup := by
  induction pns generalizing m with
  | nil => exact hnodup
  | cons q qs ih =>
    simp only [eraseKeys, List.foldl_cons]
    exact ih _ (alErase_nodup q m hnodup)

/-- Helper: batch erase removes every listed key (under distinct keys). -/
theorem eraseKeys_mem_none (pns : List Nat) (pn : Nat)
    (m : List (Nat × SentPacket)) (hnodup : (m.map Prod.fst).Nodup)
    (h : pn ∈ pns) : alLookup pn (eraseKeys pns m) = none := by
  induction pns generalizing m with
  | nil => simp at h
  | cons q qs ih =>
    simp only [eraseKeys, List.foldl_cons]
    rcases List.mem_cons.mp h with rfl | hq
    · exact eraseKeys_none_preserved qs pn _ (alLookup_alErase_self pn m hnodup)
    · exact ih _ (alErase_nodup q m hnodup) hq

/-- Helper: reading back a written space. -/
theorem getSpace_setSpace (c : ConnA) (sp : SpaceId) (s : PacketSpaceA) :
    (c.setSpace sp s).getSpace sp = s := by
  cases sp <;> rfl

/-- Helper: updating `rtt` leaves every space unchanged. -/
theorem getSpace_rtt (c : ConnA) (x : RttEstimator) (sp : SpaceId) :
    ({ c with rtt := x } : ConnA).getSpace sp = c.getSpace sp := by
  cases sp <;> rfl

/-- Helper: updating `in_flight` leaves every space unchanged. -/
theorem getSpace_in_flight (c : ConnA) (x : InFlight) (sp : SpaceId) :
    ({ c with in_flight := x } : ConnA).getSpace sp = c.getSpace sp := by
  cases sp <;> rfl

/-- Helper: updating `in_flight` and `lost_packets` leaves spaces unchanged. -/
theorem getSpace_in_flight_lost (c : ConnA) (x : InFlight) (y : Nat)
    (sp : SpaceId) :
    ({ c with in_flight := x, lost_packets := y } : ConnA).getSpace sp =
      c.getSpace sp := by
  cases sp <;> rfl

/-- Helper: updating the congestion fields leaves spaces unchanged. -/
theorem getSpace_cc (c : ConnA) (x : CongestionState) (sp : SpaceId) :
    ({ c with cc := x } : ConnA).getSpace sp = c.getSpace sp := by
  cases sp <;> rfl

/-- Helper: resetting the backoff counters leaves spaces unchanged. -/
theorem getSpace_counts (c : ConnA) (x y : Nat) (sp : SpaceId) :
    ({ c with crypto_count := x, pto_count := y } : ConnA).getSpace sp =
      c.getSpace sp := by
  cases sp <;> rfl

/-- Helper: halting ECN leaves spaces unchanged. -/
theorem getSpace_sending_ecn (c : ConnA) (x : Bool) (sp : SpaceId) :
    ({ c with sending_ecn := x } : ConnA).getSpace sp = c.getSpace sp := by
  cases sp <;> rfl

/-- Helper: queuing a loss-detection timer update leaves spaces unchanged. -/
theorem getSpace_timer_loss (c : ConnA) (x : Option TimerAct) (sp : SpaceId) :
    ({ c with timer_loss := x } : ConnA).getSpace sp = c.getSpace sp := by
  cases sp <;> rfl

/-- Helper: queuing a key-discard timer update leaves spaces unchanged. -/
theorem getSpace_timer_kd (c : ConnA) (x : Option TimerAct) (sp : SpaceId) :
    ({ c with timer_key_discard := x } : ConnA).getSpace sp =
      c.getSpace sp := by
  cases sp <;> rfl

/-- Helper: the blocked-stream drain leaves spaces unchanged. -/
theorem getSpace_drain (c : ConnA) (x : List EventA) (y : List StreamId)
    (sp : SpaceId) :
    ({ c with events := x, blocked_streams := y } : ConnA).getSpace sp =
      c.getSpace sp := by
  cases sp <;> rfl

/-- Helper: congestion-window growth leaves spaces unchanged. -/
theorem ackCongestion_getSpace (c : ConnA) (i : SentPacket) (sp : SpaceId) :
    (ackCongestion c i).getSpace sp = c.getSpace sp := by
  unfold ackCongestion
  split
  · split
    · rfl
    · split
      · exact getSpace_cc c _ sp
      · exact getSpace_cc c _ sp
  · rfl

/-- Helper: one RESET_STREAM finalization leaves spaces unchanged. -/
theorem ackRstStep_getSpace (c : ConnA) (e : StreamId × Nat) (sp : SpaceId) :
    (ackRstStep c e).getSpace sp = c.getSpace sp := by
  unfold ackRstStep
  split
  · split
    · cases sp <;> rfl
    · rfl
  · rfl

/-- Helper: one STREAM-frame finalization leaves spaces unchanged. -/
theorem ackStreamStep_getSpace (c : ConnA) (fr : StreamFrame) (sp : SpaceId) :
    (ackStreamStep c fr).getSpace sp = c.getSpace sp := by
  unfold ackStreamStep
  split
  · rfl
  · dsimp only
    split
    · cases sp <;> rfl
    · cases sp <;> rfl

/-- Helper: a fold whose step preserves the spaces preserves the spaces. -/
theorem foldl_getSpace {α : Type} (f : ConnA → α → ConnA) (sp : SpaceId)
    (hf : ∀ c a, (f c a).getSpace sp = c.getSpace sp) (l : List α)
    (c : ConnA) : (l.foldl f c).getSpace sp = c.getSpace sp := by
  induction l generalizing c with
  | nil => rfl
  | cons a as ih => rw [List.foldl_cons, ih, hf]

/-- Helper: the RESET_STREAM walk leaves spaces unchanged. -/
theorem ackRstWalk_getSpace (c : ConnA) (rsts : List (StreamId × Nat))
    (sp : SpaceId) : (ackRstWalk c rsts).getSpace sp = c.getSpace sp :=
  foldl_getSpace ackRstStep sp (fun c e => ackRstStep_getSpace c e sp) rsts c

/-- Helper: the STREAM walk leaves spaces unchanged. -/
theorem ackStreamWalk_getSpace (c : ConnA) (frames : List StreamFrame)
    (sp : SpaceId) : (ackStreamWalk c frames).getSpace sp = c.getSpace sp :=
  foldl_getSpace ackStreamStep sp (fun c fr => ackStreamStep_getSpace c fr sp)
    frames c

/-- Helper: `on_packet_acked` erases the packet from the map and preserves
`largest_acked_packet`. -/
theorem onPA_getSpace (c : ConnA) (sp : SpaceId) (pn : Nat) :
    ((on_packet_ackedA c sp pn).getSpace sp).sent_packets =
      alErase pn ((c.getSpace sp).sent_packets) ∧
    ((on_packet_ackedA c sp pn).getSpace sp).largest_acked_packet =
      (c.getSpace sp).largest_acked_packet := by
  unfold on_packet_ackedA
  cases hl : alLookup pn ((c.getSpace sp).sent_packets) with
  | none =>
    rw [alErase_of_none pn _ hl]
    exact ⟨rfl, rfl⟩
  | some info =>
    rw [getSpace_setSpace, ackStreamWalk_getSpace, ackRstWalk_getSpace,
      ackCongestion_getSpace, getSpace_in_flight]
    exact ⟨rfl, rfl⟩

/-- Helper: folding `on_packet_acked` over a list erases exactly those keys
and preserves `largest_acked_packet`. -/
theorem foldPA_getSpace (newly : List Nat) (sp : SpaceId) (c : ConnA) :
    ((newly.foldl (fun c pn => on_packet_ackedA c sp pn) c).getSpace
        sp).sent_packets =
      eraseKeys newly ((c.getSpace sp).sent_packets) ∧
    ((newly.foldl (fun c pn => on_packet_ackedA c sp pn) c).getSpace
        sp).largest_acked_packet =
      (c.getSpace sp).largest_acked_packet := by
  induction newly generalizing c with
  | nil => exact ⟨rfl, rfl⟩
  | cons pn pns ih =>
    simp only [List.foldl_cons, eraseKeys, List.foldl_cons] at *
    obtain ⟨h1, h2⟩ := onPA_getSpace c sp pn
    obtain ⟨ihm, ihl⟩ := ih (on_packet_ackedA c sp pn)
    constructor
    · rw [ihm, h1]
    · rw [ihl, h2]

/-- Helper: loss detection never adds map entries and preserves
`largest_acked_packet`. -/
theorem detectA_getSpace (c : ConnA) (now : Nat) (sp : SpaceId) :
    (∀ pn, alLookup pn ((c.getSpace sp).sent_packets) = none →
      alLookup pn
        (((detect_lost_packetsA c now sp).getSpace sp).sent_packets) =
        none) ∧
    ((detect_lost_packetsA c now sp).getSpace sp).largest_acked_packet =
      (c.getSpace sp).largest_acked_packet := by
  cases sp
  all_goals
    unfold detect_lost_packetsA
    dsimp only
    split
    · exact ⟨fun pn h => h, rfl⟩
    · split
      · split
        · exact ⟨fun pn h => eraseKeys_none_preserved _ pn _ h, rfl⟩
        · exact ⟨fun pn h => eraseKeys_none_preserved _ pn _ h, rfl⟩
      · exact ⟨fun pn h => eraseKeys_none_preserved _ pn _ h, rfl⟩

/-- Helper: ECN processing preserves map and `largest_acked_packet`. -/
theorem ecnA_getSpace (c : ConnA) (now : Nat) (sp : SpaceId) (n : Nat)
    (ecn : EcnCounts) (t : Nat) :
    (((process_ecnA c now sp n ecn t).getSpace sp).sent_packets =
      (c.getSpace sp).sent_packets) ∧
    ((process_ecnA c now sp n ecn t).getSpace sp).largest_acked_packet =
      (c.getSpace sp).largest_acked_packet := by
  cases sp
  all_goals
    unfold process_ecnA
    dsimp only
    split
    · exact ⟨rfl, rfl⟩
    · split
      · exact ⟨rfl, rfl⟩
      · exact ⟨rfl, rfl⟩

/-- Helper: the loss-detection timer update preserves the spaces. -/
theorem sldtA_getSpace (c : ConnA) (sp : SpaceId) :
    (set_loss_detection_timerA c).getSpace sp = c.getSpace sp := by
  unfold set_loss_detection_timerA
  split
  · exact getSpace_timer_loss c _ sp
  · split
    · exact getSpace_timer_loss c _ sp
    · split
      · exact getSpace_timer_loss c _ sp
      · exact getSpace_timer_loss c _ sp

/-- Helper: the key-discard timer update preserves the spaces. -/
theorem skdtA_getSpace (c : ConnA) (now : Nat) (sp : SpaceId) :
    (set_key_discard_timerA c now).getSpace sp = c.getSpace sp := by
  unfold set_key_discard_timerA
  split
  · exact getSpace_timer_kd c _ sp
  · split
    · exact getSpace_timer_kd c _ sp
    · rfl

/-- Helper: a successful lookup returns an entry of the list. -/
theorem alLookup_mem (pn : Nat) (p : SentPacket) (l : List (Nat × SentPacket))
    (h : alLookup pn l = some p) : (pn, p) ∈ l := by
  induction l with
  | nil => simp [alLookup] at h
  | cons e es ih =>
    by_cases he : e.1 = pn
    · simp only [alLookup, he, if_true, Option.some.injEq] at h
      exact List.mem_cons.mpr (Or.inl (by cases e; simp_all))
    · simp only [alLookup, he, if_false] at h
      exact List.mem_cons_of_mem _ (ih h)

/-- Helper: a tracked packet number covered by a range is newly acked. -/
theorem mem_newlyAcked (ranges : List (Nat × Nat))
    (m : List (Nat × SentPacket)) (pn : Nat) (r : Nat × Nat) (hr : r ∈ ranges)
    (h1 : r.1 ≤ pn) (h2 : pn < r.2) (hm : alLookup pn m ≠ none) :
    pn ∈ newlyAcked ranges m := by
  induction ranges with
  | nil => simp at hr
  | cons q qs ih =>
    rw [newlyAcked]
    rcases List.mem_cons.mp hr with rfl | hr2
    · apply List.mem_append_left
      cases hlk : alLookup pn m with
      | none => exact absurd hlk hm
      | some p =>
        have hmem := alLookup_mem pn p m hlk
        refine List.mem_map.mpr ⟨(pn, p), ?_, rfl⟩
        rw [List.mem_filter]
        exact ⟨hmem, by simp [h1, h2]⟩
    · exact List.mem_append_right _ (ih hr2)

/-- Helper: when no tracked number is covered, nothing is newly acked. -/
theorem newlyAcked_eq_nil (ranges : List (Nat × Nat))
    (m : List (Nat × SentPacket))
    (h : ∀ pn r, r ∈ ranges → r.1 ≤ pn → pn < r.2 →
      alLookup pn m = none) :
    newlyAcked ranges m = [] := by
  induction ranges with
  | nil => rfl
  | cons q qs ih =>
    rw [newlyAcked]
    have h1 : (m.filter (fun e => q.1 ≤ e.1 ∧ e.1 < q.2)).map Prod.fst
        = [] := by
      rw [List.map_eq_nil_iff, List.filter_eq_nil_iff]
      intro e he hcov
      simp only [decide_eq_true_eq] at hcov
      have hnone := h e.1 q (List.mem_cons_self q qs) hcov.1 hcov.2
      exact alLookup_ne_none_of_mem e.1 e.2 m
        (by rw [Prod.mk.eta]; exact he) hnone
    rw [h1, List.nil_append]
    exact ih (fun pn r hr ha hb => h pn r (List.mem_cons_of_mem _ hr) ha hb)

/-- Helper: the largest-acked step leaves the map alone and the recorded
largest at least the frame's largest. -/
theorem largestStep_facts (c : ConnA) (sp : SpaceId) (largest : Nat) :
    (((onAckLargestStep c sp largest).1).getSpace sp).sent_packets =
      (c.getSpace sp).sent_packets ∧
    largest ≤
      (((onAckLargestStep c sp largest).1).getSpace
        sp).largest_acked_packet := by
  unfold onAckLargestStep
  dsimp only
  split
  case isTrue h =>
    dsimp only
    split
    · rw [getSpace_setSpace]
      exact ⟨rfl, le_refl _⟩
    · rw [getSpace_setSpace]
      exact ⟨rfl, le_refl _⟩
  case isFalse h =>
    dsimp only
    exact ⟨rfl, by omega⟩

/-- Helper: the largest-acked step is a no-op when the frame does not advance
`largest_acked_packet`. -/
theorem largestStep_noop (c : ConnA) (sp : SpaceId) (largest : Nat)
    (h : ¬ (c.getSpace sp).largest_acked_packet < largest) :
    onAckLargestStep c sp largest = (c, false) := by
  unfold onAckLargestStep
  dsimp only
  rw [if_neg h]

/-- Helper: the RTT step leaves every space unchanged. -/
theorem rttStep_getSpace (c1 : ConnA) (now : Nat) (sp : SpaceId)
    (ack : AckFrame) :
    (onAckRttStep c1 now sp ack).getSpace sp = c1.getSpace sp := by
  unfold onAckRttStep
  split
  · split
    · exact getSpace_rtt c1 _ sp
    · rfl
  · rfl

/-- Helper: the RTT step is a no-op when the frame's largest is untracked. -/
theorem rttStep_noop (c1 : ConnA) (now : Nat) (sp : SpaceId) (ack : AckFrame)
    (h : alLookup ack.largest ((c1.getSpace sp).sent_packets) = none) :
    onAckRttStep c1 now sp ack = c1 := by
  unfold onAckRttStep
  rw [h]

/-- Helper: the key-discard check leaves every space unchanged. -/
theorem kdStep_getSpace (c3 : ConnA) (now : Nat) (sp : SpaceId) :
    (onAckKeyDiscardStep c3 now sp).getSpace sp = c3.getSpace sp := by
  unfold onAckKeyDiscardStep
  split
  · exact skdtA_getSpace c3 now sp
  · rfl

/-- Helper: the ECN step preserves the map and the recorded largest. -/
theorem ecnStep_getSpace (c6 : ConnA) (now : Nat) (sp : SpaceId)
    (ack : AckFrame) (nl : Bool) (nlen : Nat) :
    ((onAckEcnStep c6 now sp ack nl nlen).getSpace sp).sent_packets =
      (c6.getSpace sp).sent_packets ∧
    ((onAckEcnStep c6 now sp ack nl nlen).getSpace
        sp).largest_acked_packet =
      (c6.getSpace sp).largest_acked_packet := by
  unfold onAckEcnStep
  split
  · split
    · split
      · exact ecnA_getSpace c6 now sp nlen _ _
      · exact ⟨rfl, rfl⟩
    · constructor
      · rw [getSpace_sending_ecn]
      · rw [getSpace_sending_ecn]
  · exact ⟨rfl, rfl⟩

/-- Helper: the drain step leaves every space unchanged. -/
theorem drainStep_getSpace (c8 : ConnA) (wb : Bool) (sp : SpaceId) :
    (onAckDrainStep c8 wb).getSpace sp = c8.getSpace sp := by
  unfold onAckDrainStep
  split
  · exact getSpace_drain c8 _ _ sp
  · rfl

/-- Helper: the post-processing of `on_ack_received` never adds map entries
and preserves the recorded largest. -/
theorem onAckFinish_facts (c3 : ConnA) (now : Nat) (sp : SpaceId)
    (ack : AckFrame) (nl : Bool) (nlen : Nat) (wb : Bool) :
    (∀ pn, alLookup pn ((c3.getSpace sp).sent_packets) = none →
      alLookup pn
        (((onAckFinish c3 now sp ack nl nlen wb).getSpace
          sp).sent_packets) = none) ∧
    ((onAckFinish c3 now sp ack nl nlen wb).getSpace
        sp).largest_acked_packet =
      (c3.getSpace sp).largest_acked_packet := by
  unfold onAckFinish
  rw [drainStep_getSpace, sldtA_getSpace]
  have hkd := kdStep_getSpace c3 now sp
  have hdet := detectA_getSpace (onAckKeyDiscardStep c3 now sp) now sp
  have hcnt := getSpace_counts
    (detect_lost_packetsA (onAckKeyDiscardStep c3 now sp) now sp) 0 0 sp
  have hecn := ecnStep_getSpace
    ({ detect_lost_packetsA (onAckKeyDiscardStep c3 now sp) now sp with
        crypto_count := 0, pto_count := 0 }) now sp ack nl nlen
  constructor
  · intro pn h
    rw [hecn.1, hcnt]
    exact hdet.1 pn (by rw [hkd]; exact h)
  · rw [hecn.2, hcnt, hdet.2, hkd]

/-- Helper: after `on_ack_received`, the recorded largest is at least the
frame's largest and every packet number covered by the frame's ranges is
gone from the space's map. -/
theorem onAck_facts (c : ConnA) (now : Nat) (sp : SpaceId) (ack : AckFrame)
    (hnodup : (((c.getSpace sp).sent_packets).map Prod.fst).Nodup) :
    ack.largest ≤
      ((on_ack_receivedA c now sp ack).getSpace sp).largest_acked_packet ∧
    ∀ pn r, r ∈ ack.ranges → r.1 ≤ pn → pn < r.2 →
      alLookup pn
        (((on_ack_receivedA c now sp ack).getSpace sp).sent_packets) =
        none := by
  unfold on_ack_receivedA
  dsimp only
  set c2 := onAckRttStep (onAckLargestStep c sp ack.largest).1 now sp ack
    with hc2
  have hmap : (c2.getSpace sp).sent_packets =
      (c.getSpace sp).sent_packets := by
    rw [hc2, rttStep_getSpace]
    exact (largestStep_facts c sp ack.largest).1
  have hge : ack.largest ≤ (c2.getSpace sp).largest_acked_packet := by
    rw [hc2, rttStep_getSpace]
    exact (largestStep_facts c sp ack.largest).2
  have hnodup2 : (((c2.getSpace sp).sent_packets).map Prod.fst).Nodup := by
    rw [hmap]
    exact hnodup
  split
  case isTrue hnil =>
    refine ⟨hge, ?_⟩
    intro pn r hr h1 h2
    by_cases hlk : alLookup pn ((c2.getSpace sp).sent_packets) = none
    · exact hlk
    · exfalso
      have hmem := mem_newlyAcked ack.ranges _ pn r hr h1 h2 hlk
      rw [hnil] at hmem
      simp at hmem
  case isFalse hnil =>
    have hfold := foldPA_getSpace
      (newlyAcked ack.ranges ((c2.getSpace sp).sent_packets)) sp c2
    have hff := onAckFinish_facts
      ((newlyAcked ack.ranges ((c2.getSpace sp).sent_packets)).foldl
        (fun c pn => on_packet_ackedA c sp pn) c2)
      now sp ack (onAckLargestStep c sp ack.largest).2
      (newlyAcked ack.ranges ((c2.getSpace sp).sent_packets)).length
      (blockedA c)
    constructor
    · rw [hff.2, hfold.2]
      exact hge
    · intro pn r hr h1 h2
      apply hff.1 pn
      rw [hfold.1]
      by_cases hlk : alLookup pn ((c2.getSpace sp).sent_packets) = none
      · exact eraseKeys_none_preserved _ pn _ hlk
      · exact eraseKeys_mem_none _ pn _ hnodup2
          (mem_newlyAcked ack.ranges _ pn r hr h1 h2 hlk)

/-- C8: processing the same ACK frame a second time is a no-op: after the
first `on_ack_received`, every covered packet number has left `sent_packets`
and `largest_acked_packet` is at least the frame's largest, so the second
call takes the early return before any congestion, retransmit, stream,
timer or window state is touched. The hypotheses say the frame is
well-formed (its largest lies in one of its own ranges, as the wire encoding
forces) and that the map's keys are distinct (as `BTreeMap` guarantees). -/
theorem C8_ack_idempotent (c : ConnA) (now : Nat) (sp : SpaceId)
    (ack : AckFrame)
    (hwf : ∃ r ∈ ack.ranges, r.1 ≤ ack.largest ∧ ack.largest < r.2)
    (hnodup : (((c.getSpace sp).sent_packets).map Prod.fst).Nodup) :
    on_ack_receivedA (on_ack_receivedA c now sp ack) now sp ack =
      on_ack_receivedA c now sp ack := by
  obtain ⟨hla, hnone⟩ := onAck_facts c now sp ack hnodup
  obtain ⟨r, hr, hr1, hr2⟩ := hwf
  have hlookup := hnone ack.largest r hr hr1 hr2
  have hnil := newlyAcked_eq_nil ack.ranges
    (((on_ack_receivedA c now sp ack).getSpace sp).sent_packets)
    (fun pn r hr h1 h2 => hnone pn r hr h1 h2)
  conv_lhs => rw [on_ack_receivedA]
  rw [largestStep_noop _ _ _ (by omega)]
  rw [rttStep_noop _ now sp ack hlookup, hnil]
  rfl

/-- C8 witness: acking packets 1-3 of a concrete connection twice equals
acking them once. -/
theorem C8_ack_idempotent_witness :
    on_ack_receivedA (on_ack_receivedA cW 1000 .data ackW) 1000 .data ackW =
      on_ack_receivedA cW 1000 .data ackW :=
  C8_ack_idempotent cW 1000 .data ackW
    ⟨(1, 4), by decide, by decide, by decide⟩ (by decide)

/-- C10: starting from the empty list of a fresh connection, no sequence of
NEW_CONNECTION_ID receipts and migration pops ever grows `rem_cids` beyond 32
entries. -/
theorem C10_rem_cids_bounded (ops : List RemCidOp) :
    (ops.foldl applyRemCidOp []).length ≤ 32 := by
  have key : ∀ (ops : List RemCidOp) (cids : List NewConnectionId),
      cids.length ≤ 32 → (ops.foldl applyRemCidOp cids).length ≤ 32 := by
    intro ops
    induction ops with
    | nil => intro cids h; simpa using h
    | cons op rest ih =>
      intro cids h
      exact ih _ (applyRemCidOp_length cids op h)
  exact key ops [] (by simp)

end Quinn
